import Mathlib

/-!
# Create-user Lambda handler (`src/main.go`)

A shallow embedding of the handler, of `save`, `emailAlreadyExists`,
`dynamoDbConnection` and `errorResponse`, followed by theorems about them.

Conventions of the embedding

* A Go `error` value is a `GoError`; `nil` is `none`.
* A Go panic is an explicit outcome (`Outcome.panicked`, or `none` as the
  result of `save` / `emailAlreadyExists`).
* The DynamoDB table is explicit state (`World.table`); every request sent
  to the store is recorded in a list of `StoreCall`s.
* Library calls whose code is not part of the repository
  (`json.Unmarshal`, the e-mail regular expression of the validator) are
  parameters, collected in `Libs`; failures of the SDK are switches of the
  `World`.
* Logging has no influence on any result and is omitted. The handler is only
  started through `lambda.Start`, which always installs the Lambda context
  read on line 46.
-/

namespace CreateUser

/-! ## Data model -/

/-- The `User` struct (lines 38-43). `Age` is an `int16`; no arithmetic is done on it. -/
structure User where
  Id : String := ""
  Email : String := ""
  Name : String := ""
  Age : Int := 0
deriving DecidableEq, Repr

/-- One entry of `validator.ValidationErrors`: the namespace, the field and the failed tag. -/
structure FieldError where
  Namespace : String
  Field : String
  Tag : String
deriving DecidableEq, Repr

/-- Go `error` values that reach the handler: values made by `errors.New`
(the five package-level errors, and errors of libraries), and the
`validator.ValidationErrors` returned by `validate.Struct`. -/
inductive GoError
  | sentinel (msg : String)
  | validation (errs : List FieldError)
deriving DecidableEq, Repr

def ErrAuthorizerNotConfigured : GoError := .sentinel "Authorization not configured"

def ErrUserNotInformed : GoError := .sentinel "User body required."

def ErrUserNotCreated : GoError := .sentinel "User could not be created"

def ErrUserNotFound : GoError := .sentinel "User not found"

def ErrUserAlreadyExists : GoError := .sentinel "User already exists with this e-mail"

/-- The text of one field error, as `validator` prints it. -/
def FieldError.Error (fe : FieldError) : String :=
  "Key: '" ++ fe.Namespace ++ "' Error:Field validation for '" ++ fe.Field
    ++ "' failed on the '" ++ fe.Tag ++ "' tag"

/-- The method `Error()`. For validation errors the library writes every field
error followed by a newline and trims the result, which is the field errors
separated by newlines. -/
def GoError.Error : GoError → String
  | .sentinel msg => msg
  | .validation errs => "\n".intercalate (errs.map FieldError.Error)

/-- The `events.APIGatewayProxyResponse` fields the handler sets; a nil header map is `[]`. -/
structure APIGatewayProxyResponse where
  StatusCode : Int := 0
  Headers : List (String × String) := []
  Body : String := ""
deriving DecidableEq, Repr

/-- Values of type `interface{}` found in an authorizer map. -/
inductive Iface
  | str (s : String)
  | num (n : Int)
  | bool (b : Bool)
  | map (m : List (String × Iface))

/-- The parts of `events.APIGatewayProxyRequest` the handler reads:
`request.Body` and `request.RequestContext.Authorizer` (`none` is the nil map). -/
structure APIGatewayProxyRequest where
  Body : String
  Authorizer : Option (List (String × Iface))

/-- A DynamoDB attribute value (`types.AttributeValueMemberS`, `...MemberN`);
numbers travel as their decimal text. -/
inductive AttributeValue
  | S (Value : String)
  | N (Value : String)
deriving DecidableEq, Repr

/-- An item: `map[string]types.AttributeValue`. -/
abbrev Item := List (String × AttributeValue)

/-- Libraries taken as parameters. -/
structure Libs where
  /-- The call `json.Unmarshal([]byte(body), &user)` on a zero `User`: the error, or the filled struct. -/
  jsonUnmarshal : String → Except String User
  /-- The regular expression behind the `email` tag of the validator. -/
  emailRegex : String → Bool

/-- Everything outside the request that an invocation depends on. -/
structure World where
  /-- The environment variable `AWS_SAM_LOCAL`. -/
  AWS_SAM_LOCAL : String
  /-- The twelve bytes of the identifier `xid.New()` returns in this invocation,
  read as one big-endian number (taken modulo `2 ^ 96`). -/
  uuid : Nat
  /-- Whether `config.LoadDefaultConfig` succeeds. -/
  configLoads : Bool
  /-- The items of table `User` at the endpoint the client talks to. -/
  table : List Item
  /-- A scan page evaluates at most `pageLimit + 1` items. -/
  pageLimit : Nat
  /-- Indices (from 0) of the scan page requests that fail. -/
  failingScans : List Nat
  /-- Whether the `PutItem` request fails in transport or service. -/
  putFails : Bool
deriving DecidableEq, Repr

/-- A request sent to the store. -/
inductive StoreCall
  | Scan
  | PutItem (item : Item)
deriving DecidableEq, Repr

/-- How an invocation ends: by a panic, or by returning a response (the
returned `error` is always nil). -/
inductive Outcome
  | panicked
  | returned (resp : APIGatewayProxyResponse)
deriving DecidableEq, Repr

/-- The observable result of one invocation of `handler`. -/
structure Run where
  outcome : Outcome
  table : List Item
  calls : List StoreCall
deriving DecidableEq, Repr

/-- The result of `save`: `result = none` is a panic, `some e` the returned error value. -/
structure SaveRun where
  result : Option (Option GoError)
  table : List Item
  calls : List StoreCall
deriving DecidableEq, Repr

/-- The part of `dynamodb.ScanOutput` that is read. -/
structure ScanOutput where
  Count : Nat
  Items : List Item
deriving DecidableEq, Repr

/-- The endpoint a client is configured with. -/
inductive Endpoint
  | default
  | url (u : String)
deriving DecidableEq, Repr

/-! ## `encoding/json` output -/

def hexDigit (n : Nat) : Char := "0123456789abcdef".toList.getD n '0'

/-- How `json.Marshal` writes one character of a string (HTML escaping on; the
short forms for backspace and form feed are those of Go 1.22 and later). -/
def escapeRune (c : Char) : List Char :=
  if c = Char.ofNat 34 then [Char.ofNat 92, Char.ofNat 34]
  else if c = Char.ofNat 92 then [Char.ofNat 92, Char.ofNat 92]
  else if c = Char.ofNat 10 then [Char.ofNat 92, 'n']
  else if c = Char.ofNat 13 then [Char.ofNat 92, 'r']
  else if c = Char.ofNat 9 then [Char.ofNat 92, 't']
  else if c = Char.ofNat 8 then [Char.ofNat 92, 'b']
  else if c = Char.ofNat 12 then [Char.ofNat 92, 'f']
  else if c.toNat < 32 ∨ c = '<' ∨ c = '>' ∨ c = '&' then
    [Char.ofNat 92, 'u', '0', '0', hexDigit (c.toNat / 16), hexDigit (c.toNat % 16)]
  else if c.toNat = 8232 then [Char.ofNat 92, 'u', '2', '0', '2', '8']
  else if c.toNat = 8233 then [Char.ofNat 92, 'u', '2', '0', '2', '9']
  else [c]

/-- The call `json.Marshal(s)` for a string `s`. -/
def jsonMarshalString (s : String) : String :=
  "\"" ++ String.mk (s.toList.flatMap escapeRune) ++ "\""

/-- The call `json.Marshal(user)`, with the keys of the `json` struct tags. -/
def jsonMarshalUser (u : User) : String :=
  "\x7b\"id\":" ++ jsonMarshalString u.Id ++ ",\"e-mail\":" ++ jsonMarshalString u.Email
    ++ ",\"name\":" ++ jsonMarshalString u.Name ++ ",\"age\":" ++ toString u.Age ++ "\x7d"

/-! ## Validation (`validate` struct tags, lines 40-41) -/

/-- Tags `required,email` of field `Email`; the first failing tag is reported. -/
def validateEmail (L : Libs) (u : User) : Option FieldError :=
  if u.Email = "" then some ⟨"User.Email", "Email", "required"⟩
  else if L.emailRegex u.Email = false then some ⟨"User.Email", "Email", "email"⟩
  else none

/-- Tags `required,min=2,max=200` of field `Name`; lengths count characters. -/
def validateName (u : User) : Option FieldError :=
  if u.Name = "" then some ⟨"User.Name", "Name", "required"⟩
  else if u.Name.length < 2 then some ⟨"User.Name", "Name", "min"⟩
  else if 200 < u.Name.length then some ⟨"User.Name", "Name", "max"⟩
  else none

/-- The call `validate.Struct(user)`: fields are checked in declaration order;
`Id` and `Age` carry no tag. `none` is the nil error. -/
def validateStruct (L : Libs) (u : User) : Option GoError :=
  match (validateEmail L u).toList ++ (validateName u).toList with
  | [] => none
  | errs => some (.validation errs)

/-! ## The program -/

def tableName : String := "User"

/-- Modelled from the spec: the key schema of table `User` is declared in the
deployment template, which is not among the sources; the spec says the table is
keyed by `id`. -/
def hashKey : String := "id"

/-- The function `strconv.ParseBool`: the value and whether parsing succeeded. -/
def ParseBool (s : String) : Bool × Bool :=
  if s ∈ ["1", "t", "T", "TRUE", "true", "True"] then (true, true)
  else if s ∈ ["0", "f", "F", "FALSE", "false", "False"] then (false, true)
  else (false, false)

/-- The value of `devEnv` on lines 50 and 121 (the parse error is dropped). -/
def devEnv (w : World) : Bool := (ParseBool w.AWS_SAM_LOCAL).1

/-- `errorResponse` (lines 181-193). -/
def errorResponse (err : GoError) (statusCode : Int) : APIGatewayProxyResponse :=
  { Headers := [("Content-Type", "application/json"), ("Access-Control-Allow-Origin", "*")],
    StatusCode := statusCode,
    Body := jsonMarshalString err.Error }

/-- `dynamoDbConnection` (lines 114-127): `none` is `panic(err)`. -/
def dynamoDbConnection (w : World) : Option Endpoint :=
  if w.configLoads then
    some (if devEnv w then Endpoint.url "http://dynamodb:8000" else Endpoint.default)
  else none

/-- The filter `email = :email` with `:email` bound to the string `email`. -/
def matchesEmail (email : String) (item : Item) : Bool :=
  decide (item.lookup "email" = some (AttributeValue.S email))

/-- One successful scan request over the items evaluated for a page. -/
def Scan (email : String) (segment : List Item) : ScanOutput :=
  { Count := (segment.filter (matchesEmail email)).length,
    Items := segment.filter (matchesEmail email) }

/-- The table cut into the successive pages of a scan. -/
def paginate (limit : Nat) : Nat → List Item → List (List Item)
  | 0, t => [t]
  | fuel + 1, t =>
    if t.length ≤ limit + 1 then [t]
    else t.take (limit + 1) :: paginate limit fuel (t.drop (limit + 1))

/-- What `NextPage` returns for the pages from index `i` on: `none` is an error. -/
def scanResponses (failing : List Nat) (email : String) :
    Nat → List (List Item) → List (Option ScanOutput)
  | _, [] => []
  | i, seg :: rest =>
    (if i ∈ failing then none else some (Scan email seg))
      :: scanResponses failing email (i + 1) rest

/-- The paginator of lines 159-165, as the responses it will deliver. -/
def NewScanPaginator (w : World) (email : String) : List (Option ScanOutput) :=
  scanResponses w.failingScans email 0 (paginate w.pageLimit w.table.length w.table)

/-- The loop of lines 167-178 over the responses of the paginator: the
returned pair and the scan requests made. -/
def forHasMorePages : List (Option ScanOutput) → (Bool × Option GoError) × List StoreCall
  | [] => ((false, none), [])
  | none :: _ => ((false, some ErrUserNotFound), [StoreCall.Scan])
  | some out :: rest =>
    if out.Count > 0 then ((true, none), [StoreCall.Scan])
    else ((forHasMorePages rest).1, StoreCall.Scan :: (forHasMorePages rest).2)

/-- `emailAlreadyExists` (lines 157-179); `none` is the panic of `dynamoDbConnection`. -/
def emailAlreadyExists (w : World) (email : String) :
    Option ((Bool × Option GoError) × List StoreCall) :=
  match dynamoDbConnection w with
  | none => none
  | some _ => some (forHasMorePages (NewScanPaginator w email))

/-- The item `attributevalue.MarshalMap` builds from the `dynamodbav` tags. -/
def userItem (u : User) : Item :=
  [("id", AttributeValue.S u.Id), ("email", AttributeValue.S u.Email),
   ("name", AttributeValue.S u.Name), ("age", AttributeValue.N (toString u.Age))]

/-- The call `attributevalue.MarshalMap(item)` on a `User`: the map and the
error. The encoder has no error for a struct of three strings and an `int16`,
so the error is always nil. -/
def MarshalMap (item : User) : Item × Option GoError :=
  (userItem item, none)

/-- The request `PutItem`: `none` is an error, otherwise the new table. The
service rejects an item without the key attribute and replaces the item that
has the same key. -/
def PutItem (w : World) (av : Item) : Option (List Item) :=
  if w.putFails then none
  else match av.lookup hashKey with
    | some (AttributeValue.S k) =>
      some (w.table.filter (fun it => decide (it.lookup hashKey ≠ some (AttributeValue.S k))) ++ [av])
    | _ => none

/-- `save` (lines 129-155). -/
def save (w : World) (item : User) : SaveRun :=
  match emailAlreadyExists w item.Email with
  | none => ⟨none, w.table, []⟩
  | some ((userExists, err), scans) =>
    match err with
    | some e => ⟨some (some e), w.table, scans⟩
    | none =>
      if userExists then ⟨some (some ErrUserAlreadyExists), w.table, scans⟩
      else
        match dynamoDbConnection w with
        | none => ⟨none, w.table, scans⟩
        | some _ =>
          let av := (MarshalMap item).1
          -- lines 141-144: on an error of MarshalMap the response built by
          -- errorResponse is dropped and there is no return; execution goes on
          let _dropped := (MarshalMap item).2.map (fun _ => errorResponse ErrUserNotCreated 500)
          match PutItem w av with
          | none => ⟨some (some ErrUserNotCreated), w.table, scans ++ [StoreCall.PutItem av]⟩
          | some t => ⟨some none, t, scans ++ [StoreCall.PutItem av]⟩

/-- The type assertion `v.(map[string]interface{})` on the result of a map
lookup: `none` is the panic. -/
def assertMap : Option Iface → Option (List (String × Iface))
  | some (Iface.map m) => some m
  | _ => none

/-- The authorizer built on lines 61-76. -/
def mockedAuthorizer : List (String × Iface) :=
  [("claims", Iface.map
    [("at_hash", Iface.str "Q8yOMWKcs3sJGcwsFpWTAg"),
     ("sub", Iface.str "f8b122b0-f272-4715-826b-fbaf3f532a3f"),
     ("email_verified", Iface.bool true),
     ("iss", Iface.str "https://cognito-idp.us-east-1.amazonaws.com/us-east-1_397EAYA3A"),
     ("cognito:username", Iface.str "f8b122b0-f272-4715-826b-fbaf3f532a3f"),
     ("aud", Iface.str "7uvk2dvgl7adp285c5t5vibb6a"),
     ("custom:Accounts", Iface.str "ROOT"),
     ("token_use", Iface.str "id"),
     ("auth_time", Iface.num 1645590467),
     ("exp", Iface.num 1645594067),
     ("iat", Iface.num 1645590467),
     ("jti", Iface.str "fdea9783-5853-4a11-8c7c-7f3dc406e7ad"),
     ("email", Iface.str "daibertdiego@gmail.com")])]

/-- The alphabet of `xid`: base 32 with digits and lower-case letters. -/
def xidEncoding : List Char := "0123456789abcdefghijklmnopqrstuv".toList

/-- The method `String()` of an `xid.ID`: the twelve bytes, followed by four
zero bits, written as twenty characters of five bits each. -/
def xidString (raw : Nat) : String :=
  String.mk ((List.range 20).map
    (fun i => xidEncoding.getD ((raw % 2 ^ 96 * 16 / 32 ^ (19 - i)) % 32) '0'))

/-- Lines 86-112 of `handler`: everything after the authorization step. -/
def handlerBody (L : Libs) (w : World) (request : APIGatewayProxyRequest) : Run :=
  match L.jsonUnmarshal request.Body with
  | .error _ => ⟨.returned (errorResponse ErrUserNotInformed 400), w.table, []⟩
  | .ok user =>
    match validateStruct L user with
    | some err => ⟨.returned (errorResponse err 400), w.table, []⟩
    | none =>
      let user := { user with Id := xidString w.uuid }
      match (save w user).result with
      | none => ⟨.panicked, (save w user).table, (save w user).calls⟩
      | some (some err) =>
        ⟨.returned (errorResponse err 500), (save w user).table, (save w user).calls⟩
      | some none =>
        ⟨.returned { Body := jsonMarshalUser user, StatusCode := 200 },
          (save w user).table, (save w user).calls⟩

/-- `handler` (lines 45-112). -/
def handler (L : Libs) (w : World) (request : APIGatewayProxyRequest) : Run :=
  if devEnv w = false then
    match request.Authorizer with
    | none => ⟨.returned (errorResponse ErrAuthorizerNotConfigured 500), w.table, []⟩
    | some authorizer =>
      match assertMap (authorizer.lookup "claims") with
      | none => ⟨.panicked, w.table, []⟩
      | some _ => handlerBody L w request
  else
    match assertMap (mockedAuthorizer.lookup "claims") with
    | none => ⟨.panicked, w.table, []⟩
    | some _ => handlerBody L w { request with Authorizer := some mockedAuthorizer }

/-! ## A reference instance of the libraries

Used to run the handler on concrete request bodies. -/

/-- A parsed JSON text. -/
inductive JsonValue
  | null
  | bool (b : Bool)
  | number (lit : List Char)
  | string (s : List Char)
  | array (elems : List JsonValue)
  | object (members : List (List Char × JsonValue))

/-- JSON white space. -/
def isSpace (c : Char) : Bool := c = ' ' ∨ c = Char.ofNat 9 ∨ c = Char.ofNat 10 ∨ c = Char.ofNat 13

/-- Drops leading white space. -/
def skipSpace : List Char → List Char
  | [] => []
  | c :: cs => if isSpace c then skipSpace cs else c :: cs

/-- The value of a hexadecimal digit. -/
def hexVal (c : Char) : Option Nat :=
  if '0' ≤ c ∧ c ≤ '9' then some (c.toNat - 48)
  else if 'a' ≤ c ∧ c ≤ 'f' then some (c.toNat - 87)
  else if 'A' ≤ c ∧ c ≤ 'F' then some (c.toNat - 55)
  else none

/-- Four hexadecimal digits of a `u` escape: their value and the rest. -/
def hex4 : List Char → Option (Nat × List Char)
  | a :: b :: c :: d :: rest =>
    match hexVal a, hexVal b, hexVal c, hexVal d with
    | some x, some y, some z, some t => some (((x * 16 + y) * 16 + z) * 16 + t, rest)
    | _, _, _, _ => none
  | _ => none

/-- The text of a string after its opening quote: the decoded characters and the rest. -/
def parseString : Nat → List Char → List Char → Option (List Char × List Char)
  | 0, _, _ => none
  | _ + 1, [], _ => none
  | fuel + 1, c :: cs, acc =>
    if c = Char.ofNat 34 then some (acc.reverse, cs)
    else if c = Char.ofNat 92 then
      match cs with
      | [] => none
      | e :: rest =>
        if e = Char.ofNat 34 ∨ e = Char.ofNat 92 ∨ e = '/' then parseString fuel rest (e :: acc)
        else if e = 'b' then parseString fuel rest (Char.ofNat 8 :: acc)
        else if e = 'f' then parseString fuel rest (Char.ofNat 12 :: acc)
        else if e = 'n' then parseString fuel rest (Char.ofNat 10 :: acc)
        else if e = 'r' then parseString fuel rest (Char.ofNat 13 :: acc)
        else if e = 't' then parseString fuel rest (Char.ofNat 9 :: acc)
        else if e = 'u' then
          match hex4 rest with
          | none => none
          | some (hi, rest1) =>
            if 55296 ≤ hi ∧ hi < 57344 then
              match rest1 with
              | b :: u :: rest2 =>
                match (if b = Char.ofNat 92 ∧ u = 'u' then hex4 rest2 else none) with
                | some (lo, rest3) =>
                  if hi < 56320 ∧ 56320 ≤ lo ∧ lo < 57344 then
                    parseString fuel rest3 (Char.ofNat ((hi - 55296) * 1024 + (lo - 56320) + 65536) :: acc)
                  else parseString fuel rest1 (Char.ofNat 65533 :: acc)
                | none => parseString fuel rest1 (Char.ofNat 65533 :: acc)
              | _ => parseString fuel rest1 (Char.ofNat 65533 :: acc)
            else parseString fuel rest1 (Char.ofNat hi :: acc)
        else none
    else if c.toNat < 32 then none
    else parseString fuel cs (c :: acc)

/-- The leading decimal digits and the rest. -/
def takeDigits : List Char → List Char × List Char
  | [] => ([], [])
  | c :: cs => if c.isDigit then ((c :: (takeDigits cs).1), (takeDigits cs).2) else ([], c :: cs)

/-- A number literal: its text and the rest. -/
def parseNumber (cs : List Char) : Option (List Char × List Char) :=
  let (sign, cs1) := match cs with
    | '-' :: r => (['-'], r)
    | _ => ([], cs)
  let (intPart, cs2) := takeDigits cs1
  if intPart = [] ∨ (intPart.head? = some '0' ∧ intPart.length ≠ 1) then none
  else
    let fracOpt : Option (List Char × List Char) := match cs2 with
      | '.' :: r =>
        let (fr, r2) := takeDigits r
        if fr = [] then none else some ('.' :: fr, r2)
      | _ => some ([], cs2)
    match fracOpt with
    | none => none
    | some (frac, cs3) =>
      let expOpt : Option (List Char × List Char) := match cs3 with
        | e :: r =>
          if e = 'e' ∨ e = 'E' then
            let (sg, r1) := match r with
              | s :: r0 => if s = '+' ∨ s = '-' then ([s], r0) else ([], r)
              | [] => ([], r)
            let (ex, r2) := takeDigits r1
            if ex = [] then none else some (e :: sg ++ ex, r2)
          else some ([], cs3)
        | [] => some ([], cs3)
      match expOpt with
      | none => none
      | some (ex, cs4) => some (sign ++ intPart ++ frac ++ ex, cs4)

mutual
/-- One JSON value: the value and the rest of the text. -/
def parseValue : Nat → List Char → Option (JsonValue × List Char)
  | 0, _ => none
  | fuel + 1, cs =>
    match skipSpace cs with
    | 'n' :: 'u' :: 'l' :: 'l' :: rest => some (JsonValue.null, rest)
    | 't' :: 'r' :: 'u' :: 'e' :: rest => some (JsonValue.bool true, rest)
    | 'f' :: 'a' :: 'l' :: 's' :: 'e' :: rest => some (JsonValue.bool false, rest)
    | c :: rest =>
      if c = Char.ofNat 34 then
        match parseString (rest.length + 1) rest [] with
        | some (s, rest1) => some (JsonValue.string s, rest1)
        | none => none
      else if c = '[' then
        match skipSpace rest with
        | ']' :: rest1 => some (JsonValue.array [], rest1)
        | _ =>
          match parseElems fuel rest with
          | some (es, rest1) => some (JsonValue.array es, rest1)
          | none => none
      else if c = Char.ofNat 123 then
        match skipSpace rest with
        | d :: rest1 =>
          if d = Char.ofNat 125 then some (JsonValue.object [], rest1)
          else
            match parseMembers fuel rest with
            | some (ms, rest2) => some (JsonValue.object ms, rest2)
            | none => none
        | [] => none
      else if c = '-' ∨ c.isDigit then
        match parseNumber (c :: rest) with
        | some (lit, rest1) => some (JsonValue.number lit, rest1)
        | none => none
      else none
    | [] => none
/-- The elements of an array up to its closing bracket. -/
def parseElems : Nat → List Char → Option (List JsonValue × List Char)
  | 0, _ => none
  | fuel + 1, cs =>
    match parseValue fuel cs with
    | none => none
    | some (v, rest) =>
      match skipSpace rest with
      | ',' :: rest1 =>
        match parseElems fuel rest1 with
        | some (vs, rest2) => some (v :: vs, rest2)
        | none => none
      | ']' :: rest1 => some ([v], rest1)
      | _ => none
/-- The members of an object up to its closing brace. -/
def parseMembers : Nat → List Char → Option (List (List Char × JsonValue) × List Char)
  | 0, _ => none
  | fuel + 1, cs =>
    match skipSpace cs with
    | q :: rest =>
      if q = Char.ofNat 34 then
        match parseString (rest.length + 1) rest [] with
        | none => none
        | some (k, rest1) =>
          match skipSpace rest1 with
          | ':' :: rest2 =>
            match parseValue fuel rest2 with
            | none => none
            | some (v, rest3) =>
              match skipSpace rest3 with
              | d :: rest4 =>
                if d = ',' then
                  match parseMembers fuel rest4 with
                  | some (ms, rest5) => some ((k, v) :: ms, rest5)
                  | none => none
                else if d = Char.ofNat 125 then some ([(k, v)], rest4)
                else none
              | [] => none
          | _ => none
      else none
    | [] => none
end

/-- A whole text: one value surrounded by white space. -/
def parseJson (s : String) : Option JsonValue :=
  match parseValue (2 * s.length + 2) s.toList with
  | some (v, rest) => if skipSpace rest = [] then some v else none
  | none => none

/-- The integer a number literal denotes, when it is written as an integer. -/
def litToInt (lit : List Char) : Option Int :=
  match lit with
  | '-' :: ds => if ds.all Char.isDigit then some (- ((ds.foldl (fun n c => 10 * n + (c.toNat - 48)) 0 : Nat) : Int)) else none
  | ds => if ds.all Char.isDigit then some ((ds.foldl (fun n c => 10 * n + (c.toNat - 48)) 0 : Nat) : Int) else none

/-- Keys are matched to the struct tags without regard to letter case. -/
def foldKey (k : List Char) : String := String.mk (k.map Char.toLower)

/-- Stores one member of the object in the struct; the flag turns false at a
value of the wrong type or an `age` outside `int16`. -/
def decodeMember (acc : User × Bool) (m : List Char × JsonValue) : User × Bool :=
  let u := acc.1
  let key := foldKey m.1
  if key = "id" then
    match m.2 with
    | JsonValue.string s => ({ u with Id := String.mk s }, acc.2)
    | JsonValue.null => acc
    | _ => (u, false)
  else if key = "e-mail" then
    match m.2 with
    | JsonValue.string s => ({ u with Email := String.mk s }, acc.2)
    | JsonValue.null => acc
    | _ => (u, false)
  else if key = "name" then
    match m.2 with
    | JsonValue.string s => ({ u with Name := String.mk s }, acc.2)
    | JsonValue.null => acc
    | _ => (u, false)
  else if key = "age" then
    match m.2 with
    | JsonValue.number lit =>
      match litToInt lit with
      | some n => if -32768 ≤ n ∧ n ≤ 32767 then ({ u with Age := n }, acc.2) else (u, false)
      | none => (u, false)
    | JsonValue.null => acc
    | _ => (u, false)
  else acc

/-- Decoding a body into a zero `User` in the manner of `encoding/json`: a
syntax error or a value of the wrong type is an error, `null` leaves the
struct untouched, unknown keys are skipped. -/
def decodeUser (s : String) : Except String User :=
  match parseJson s with
  | none => .error "invalid character or unexpected end of JSON input"
  | some JsonValue.null => .ok {}
  | some (JsonValue.object ms) =>
    let r := ms.foldl decodeMember (({} : User), true)
    if r.2 then .ok r.1 else .error "json: cannot unmarshal value into Go struct field"
  | some _ => .error "json: cannot unmarshal value into Go value of type main.User"

/-- A plain stand-in for the e-mail expression: one `@` with text on both
sides and no blank. -/
def simpleEmail (s : String) : Bool :=
  match s.toList.span (fun c => decide (c ≠ '@')) with
  | (loc, _ :: dom) =>
    decide (loc ≠ []) && decide (dom ≠ []) && dom.all (fun c => decide (c ≠ '@'))
      && s.toList.all (fun c => decide (c ≠ ' '))
  | _ => false

/-- The reference instance of the library parameters. -/
def refLibs : Libs := ⟨decodeUser, simpleEmail⟩

deriving instance DecidableEq for Except

/-! ## Predicates used in the statements -/

/-- The request gets past the authorization step (lines 52-84): local
development mode, or an authorizer whose `claims` entry is a map. -/
def authPasses (w : World) (request : APIGatewayProxyRequest) : Bool :=
  devEnv w ||
    match request.Authorizer with
    | some authorizer => (assertMap (authorizer.lookup "claims")).isSome
    | none => false

/-- No collaborator of the store side fails in this invocation. -/
def noFaults (w : World) : Bool :=
  w.configLoads && w.failingScans.isEmpty && !w.putFails

/-- The e-mail stored in an item, when it has one. -/
def emailOf (it : Item) : Option String :=
  match it.lookup "email" with
  | some (AttributeValue.S e) => some e
  | _ => none

/-- No two items of the table carry the same e-mail. -/
def EmailUnique (t : List Item) : Prop := (t.filterMap emailOf).Nodup

instance (t : List Item) : Decidable (EmailUnique t) := by
  unfold EmailUnique; infer_instance

/-- Tables that sequential invocations without store failures produce from the empty table. -/
inductive Reachable (L : Libs) : List Item → Prop
  | empty : Reachable L []
  | step (w : World) (request : APIGatewayProxyRequest) :
      Reachable L w.table → noFaults w = true → Reachable L (handler L w request).table

/-- A character that `json.Marshal` copies unchanged into a string. -/
def plainRune (c : Char) : Bool :=
  decide (32 ≤ c.toNat) && decide (c ≠ Char.ofNat 34) && decide (c ≠ Char.ofNat 92)
    && decide (c ≠ '<') && decide (c ≠ '>') && decide (c ≠ '&')
    && decide (c.toNat ≠ 8232) && decide (c.toNat ≠ 8233)

/-- A text without any character that JSON escapes. -/
def plainText (s : String) : Bool := s.toList.all plainRune

/-! ## Sample data -/

/-- A production world with an empty table. -/
def sampleWorld : World :=
  { AWS_SAM_LOCAL := "", uuid := 0x4d88e15b60f486e428412dc9, configLoads := true, table := [],
    pageLimit := 1, failingScans := [], putFails := false }

/-- An authorizer as the gateway passes it on. -/
def sampleAuthorizer : List (String × Iface) :=
  [("claims", Iface.map [("email", Iface.str "ann@example.com"), ("custom:Accounts", Iface.str "ROOT")])]

/-- The body of the first scenario of the specification. -/
def annBody : String := "\x7b\"e-mail\":\"a@b.com\",\"name\":\"Ann\",\"age\":30\x7d"

/-- The same body with an `id` chosen by the caller. -/
def annBodyWithId : String :=
  "\x7b\"id\":\"chosen-by-caller\",\"e-mail\":\"a@b.com\",\"name\":\"Ann\",\"age\":30\x7d"

/-- The record stored for `annBody` in `sampleWorld`. -/
def annStored : User := ⟨"9m4e2mr0ui3e8a215n4g", "a@b.com", "Ann", 30⟩

/-- The request of the first scenario. -/
def annRequest : APIGatewayProxyRequest := ⟨annBody, some sampleAuthorizer⟩

/-! ## Lemmas -/

theorem handlerBody_authorizer (L : Libs) (w : World) (body : String)
    (a b : Option (List (String × Iface))) :
    handlerBody L w ⟨body, a⟩ = handlerBody L w ⟨body, b⟩ := rfl

theorem mocked_claims_is_map : (assertMap (mockedAuthorizer.lookup "claims")).isSome = true := by
  simp [mockedAuthorizer, List.lookup, assertMap]

theorem handler_dev (L : Libs) (w : World) (request : APIGatewayProxyRequest)
    (h : devEnv w = true) : handler L w request = handlerBody L w request := by
  unfold handler
  have hm := mocked_claims_is_map
  cases hx : assertMap (mockedAuthorizer.lookup "claims") with
  | none => rw [hx] at hm; simp at hm
  | some m => simp [h]; rfl

theorem handler_of_authPasses (L : Libs) (w : World) (request : APIGatewayProxyRequest)
    (h : authPasses w request = true) : handler L w request = handlerBody L w request := by
  cases hd : devEnv w with
  | true => exact handler_dev L w request hd
  | false =>
    unfold authPasses at h
    rw [hd] at h
    unfold handler
    cases ha : request.Authorizer with
    | none => simp [ha] at h
    | some a =>
      simp only [ha, Bool.false_or] at h
      cases hx : assertMap (a.lookup "claims") with
      | none => rw [hx] at h; simp at h
      | some m => simp [hd, hx]

theorem forHasMorePages_calls (ps : List (Option ScanOutput)) :
    ∀ c ∈ (forHasMorePages ps).2, c = StoreCall.Scan := by
  induction ps with
  | nil => simp [forHasMorePages]
  | cons p rest ih =>
    cases p with
    | none => simp [forHasMorePages]
    | some out =>
      by_cases hc : out.Count > 0
      · simp [forHasMorePages, hc]
      · simpa [forHasMorePages, hc] using ih

theorem scan_count_pos (email : String) (seg : List Item) :
    (Scan email seg).Count > 0 ↔ ∃ it ∈ seg, matchesEmail email it = true := by
  simp [Scan, List.length_pos, List.filter_eq_nil_iff]

theorem scanResponses_nil_failing (email : String) (segs : List (List Item)) (i : Nat) :
    scanResponses [] email i segs = segs.map (fun p => some (Scan email p)) := by
  induction segs generalizing i with
  | nil => rfl
  | cons s rest ih => simp [scanResponses, ih]

theorem forHasMorePages_found (email : String) (pages : List (List Item))
    (h : ∃ p ∈ pages, ∃ it ∈ p, matchesEmail email it = true) :
    (forHasMorePages (pages.map (fun p => some (Scan email p)))).1 = (true, none) := by
  induction pages with
  | nil => simp at h
  | cons p rest ih =>
    by_cases hc : (Scan email p).Count > 0
    · simp [forHasMorePages, hc]
    · have hrest : ∃ q ∈ rest, ∃ it ∈ q, matchesEmail email it = true := by
        obtain ⟨q, hq, it, hit, hm⟩ := h
        rcases List.mem_cons.mp hq with rfl | hq
        · exact absurd ((scan_count_pos email q).mpr ⟨it, hit, hm⟩) hc
        · exact ⟨q, hq, it, hit, hm⟩
      simpa [forHasMorePages, hc] using ih hrest

theorem forHasMorePages_absent (email : String) (pages : List (List Item))
    (h : ¬ ∃ p ∈ pages, ∃ it ∈ p, matchesEmail email it = true) :
    (forHasMorePages (pages.map (fun p => some (Scan email p)))).1 = (false, none) := by
  induction pages with
  | nil => simp [forHasMorePages]
  | cons p rest ih =>
    have hc : ¬ (Scan email p).Count > 0 := by
      intro hc
      obtain ⟨it, hit, hm⟩ := (scan_count_pos email p).mp hc
      exact h ⟨p, List.mem_cons_self _ _, it, hit, hm⟩
    have hrest : ¬ ∃ q ∈ rest, ∃ it ∈ q, matchesEmail email it = true := by
      rintro ⟨q, hq, it, hit, hm⟩
      exact h ⟨q, List.mem_cons_of_mem _ hq, it, hit, hm⟩
    simpa [forHasMorePages, hc] using ih hrest

theorem scan_false_no_match (failing : List Nat) (email : String) (segs : List (List Item)) (i : Nat)
    (h : (forHasMorePages (scanResponses failing email i segs)).1 = (false, none)) :
    ∀ seg ∈ segs, ∀ it ∈ seg, matchesEmail email it = false := by
  induction segs generalizing i with
  | nil => simp
  | cons s rest ih =>
    by_cases hf : i ∈ failing
    · simp [scanResponses, hf, forHasMorePages] at h
    · by_cases hc : (Scan email s).Count > 0
      · simp [scanResponses, hf, forHasMorePages, hc] at h
      · simp only [scanResponses, hf, forHasMorePages, hc, if_false] at h
        intro seg hseg it hit
        rcases List.mem_cons.mp hseg with rfl | hseg
        · cases hm : matchesEmail email it with
          | false => rfl
          | true => exact absurd ((scan_count_pos email seg).mpr ⟨it, hit, hm⟩) hc
        · exact ih (i + 1) h seg hseg it hit

theorem mem_paginate (limit : Nat) (fuel : Nat) (t : List Item) (it : Item) :
    (∃ p ∈ paginate limit fuel t, it ∈ p) ↔ it ∈ t := by
  induction fuel generalizing t with
  | zero => simp [paginate]
  | succ n ih =>
    by_cases hl : t.length ≤ limit + 1
    · simp [paginate, hl]
    · simp only [paginate, hl, if_false, List.mem_cons, exists_eq_or_imp, ih]
      rw [← List.mem_append, List.take_append_drop]

theorem save_noconfig (w : World) (u : User) (h : w.configLoads = false) :
    save w u = ⟨none, w.table, []⟩ := by
  simp [save, emailAlreadyExists, dynamoDbConnection, h]

theorem save_scan_error (w : World) (u : User) (b : Bool) (e : GoError)
    (h : w.configLoads = true)
    (hr : (forHasMorePages (NewScanPaginator w u.Email)).1 = (b, some e)) :
    save w u = ⟨some (some e), w.table, (forHasMorePages (NewScanPaginator w u.Email)).2⟩ := by
  simp only [save, emailAlreadyExists, dynamoDbConnection, h, if_true]
  generalize forHasMorePages (NewScanPaginator w u.Email) = r at hr
  obtain ⟨⟨b', e'⟩, scans⟩ := r
  simp only [Prod.mk.injEq] at hr
  obtain ⟨rfl, rfl⟩ := hr
  rfl

theorem save_exists (w : World) (u : User) (h : w.configLoads = true)
    (hr : (forHasMorePages (NewScanPaginator w u.Email)).1 = (true, none)) :
    save w u = ⟨some (some ErrUserAlreadyExists), w.table,
      (forHasMorePages (NewScanPaginator w u.Email)).2⟩ := by
  simp only [save, emailAlreadyExists, dynamoDbConnection, h, if_true]
  generalize forHasMorePages (NewScanPaginator w u.Email) = r at hr
  obtain ⟨⟨b', e'⟩, scans⟩ := r
  simp only [Prod.mk.injEq] at hr
  obtain ⟨rfl, rfl⟩ := hr
  rfl

theorem save_put (w : World) (u : User) (h : w.configLoads = true)
    (hr : (forHasMorePages (NewScanPaginator w u.Email)).1 = (false, none)) :
    save w u =
      match PutItem w (MarshalMap u).1 with
      | none => ⟨some (some ErrUserNotCreated), w.table,
          (forHasMorePages (NewScanPaginator w u.Email)).2 ++ [StoreCall.PutItem (MarshalMap u).1]⟩
      | some t => ⟨some none, t,
          (forHasMorePages (NewScanPaginator w u.Email)).2 ++ [StoreCall.PutItem (MarshalMap u).1]⟩ := by
  simp only [save, emailAlreadyExists, dynamoDbConnection, h, if_true]
  generalize forHasMorePages (NewScanPaginator w u.Email) = r at hr
  obtain ⟨⟨b', e'⟩, scans⟩ := r
  simp only [Prod.mk.injEq] at hr
  obtain ⟨rfl, rfl⟩ := hr
  simp

/-- The first component of the loop result is one of four shapes. -/
theorem forHasMorePages_shape (ps : List (Option ScanOutput)) :
    (forHasMorePages ps).1 = (false, none) ∨ (forHasMorePages ps).1 = (true, none)
      ∨ (forHasMorePages ps).1 = (false, some ErrUserNotFound) := by
  induction ps with
  | nil => simp [forHasMorePages]
  | cons p rest ih =>
    cases p with
    | none => simp [forHasMorePages]
    | some out =>
      by_cases hc : out.Count > 0
      · simp [forHasMorePages, hc]
      · simpa [forHasMorePages, hc] using ih

theorem PutItem_eq_some (w : World) (av : Item) (t : List Item) (h : PutItem w av = some t) :
    w.putFails = false ∧ ∃ k, av.lookup hashKey = some (AttributeValue.S k) ∧
      t = w.table.filter (fun it => decide (it.lookup hashKey ≠ some (AttributeValue.S k))) ++ [av] := by
  unfold PutItem at h
  cases hp : w.putFails with
  | true => simp [hp] at h
  | false =>
    simp only [hp, Bool.false_eq_true, if_false] at h
    refine ⟨rfl, ?_⟩
    cases hl : av.lookup hashKey with
    | none => simp [hl] at h
    | some v =>
      cases v with
      | N n => simp [hl] at h
      | S k =>
        simp only [hl, Option.some.injEq] at h
        exact ⟨k, rfl, h.symm⟩

theorem MarshalMap_keyed (u : User) (k : String)
    (h : (MarshalMap u).1.lookup hashKey = some (AttributeValue.S k)) :
    (MarshalMap u).1 = userItem u ∧ k = u.Id := by
  unfold MarshalMap at h ⊢
  simp [userItem, hashKey, List.lookup] at h ⊢
  exact h.symm

/-- The errors `save` can return. -/
theorem save_errors (w : World) (u : User) (e : GoError) (h : (save w u).result = some (some e)) :
    e = ErrUserNotFound ∨ e = ErrUserAlreadyExists ∨ e = ErrUserNotCreated := by
  cases hc : w.configLoads with
  | false => rw [save_noconfig w u hc] at h; simp at h
  | true =>
    rcases forHasMorePages_shape (NewScanPaginator w u.Email) with hr | hr | hr
    · rw [save_put w u hc hr] at h
      cases hp : PutItem w (MarshalMap u).1 with
      | none => rw [hp] at h; simp at h; exact Or.inr (Or.inr h.symm)
      | some t => rw [hp] at h; simp at h
    · rw [save_exists w u hc hr] at h
      simp at h; exact Or.inr (Or.inl h.symm)
    · rw [save_scan_error w u false _ hc hr] at h
      simp at h; exact Or.inl h.symm

theorem matchesEmail_iff (email : String) (it : Item) :
    matchesEmail email it = true ↔ it.lookup "email" = some (AttributeValue.S email) := by
  simp [matchesEmail]

theorem handlerBody_error (L : Libs) (w : World) (request : APIGatewayProxyRequest) (e : String)
    (hparse : L.jsonUnmarshal request.Body = .error e) :
    handlerBody L w request = ⟨.returned (errorResponse ErrUserNotInformed 400), w.table, []⟩ := by
  simp [handlerBody, hparse]

theorem handlerBody_invalid (L : Libs) (w : World) (request : APIGatewayProxyRequest) (u : User)
    (err : GoError) (hparse : L.jsonUnmarshal request.Body = .ok u)
    (hv : validateStruct L u = some err) :
    handlerBody L w request = ⟨.returned (errorResponse err 400), w.table, []⟩ := by
  simp [handlerBody, hparse, hv]

theorem handlerBody_valid (L : Libs) (w : World) (request : APIGatewayProxyRequest) (u : User)
    (hparse : L.jsonUnmarshal request.Body = .ok u) (hv : validateStruct L u = none) :
    handlerBody L w request =
      match (save w ⟨xidString w.uuid, u.Email, u.Name, u.Age⟩).result with
      | none => ⟨.panicked, (save w ⟨xidString w.uuid, u.Email, u.Name, u.Age⟩).table,
          (save w ⟨xidString w.uuid, u.Email, u.Name, u.Age⟩).calls⟩
      | some (some err) => ⟨.returned (errorResponse err 500),
          (save w ⟨xidString w.uuid, u.Email, u.Name, u.Age⟩).table,
          (save w ⟨xidString w.uuid, u.Email, u.Name, u.Age⟩).calls⟩
      | some none => ⟨.returned ⟨200, [], jsonMarshalUser ⟨xidString w.uuid, u.Email, u.Name, u.Age⟩⟩,
          (save w ⟨xidString w.uuid, u.Email, u.Name, u.Age⟩).table,
          (save w ⟨xidString w.uuid, u.Email, u.Name, u.Age⟩).calls⟩ := by
  simp [handlerBody, hparse, hv]

/-- What `handlerBody` can end with. -/
theorem handlerBody_outcome (L : Libs) (w : World) (request : APIGatewayProxyRequest) :
    (handlerBody L w request).outcome = .panicked
    ∨ (∃ err, (handlerBody L w request).outcome = .returned (errorResponse err 400))
    ∨ (∃ err, (err = ErrUserNotFound ∨ err = ErrUserAlreadyExists ∨ err = ErrUserNotCreated) ∧
        (handlerBody L w request).outcome = .returned (errorResponse err 500))
    ∨ (∃ u, (handlerBody L w request).outcome = .returned ⟨200, [], jsonMarshalUser u⟩) := by
  cases hp : L.jsonUnmarshal request.Body with
  | error e => rw [handlerBody_error L w request e hp]; exact Or.inr (Or.inl ⟨_, rfl⟩)
  | ok u =>
    cases hv : validateStruct L u with
    | some err => rw [handlerBody_invalid L w request u err hp hv]; exact Or.inr (Or.inl ⟨_, rfl⟩)
    | none =>
      rw [handlerBody_valid L w request u hp hv]
      cases hs : (save w ⟨xidString w.uuid, u.Email, u.Name, u.Age⟩).result with
      | none => exact Or.inl rfl
      | some r =>
        cases r with
        | none => exact Or.inr (Or.inr (Or.inr ⟨_, rfl⟩))
        | some err => exact Or.inr (Or.inr (Or.inl ⟨err, save_errors _ _ _ hs, rfl⟩))

/-- C5: a request that passes the authorization step and whose body
`json.Unmarshal` rejects gets status 400 with the JSON string
"User body required." and the headers of `errorResponse`; no request is sent
to the store and the table is unchanged. With the reference decoder the empty
body is such a body. -/
theorem handler_unparseable_body (L : Libs) (w : World) (request : APIGatewayProxyRequest)
    (e : String) (hauth : authPasses w request = true)
    (hparse : L.jsonUnmarshal request.Body = .error e) :
    handler L w request =
        ⟨.returned ⟨400, [("Content-Type", "application/json"), ("Access-Control-Allow-Origin", "*")],
          "\"User body required.\""⟩, w.table, []⟩
      ∧ handler refLibs w ⟨"", request.Authorizer⟩ =
        ⟨.returned ⟨400, [("Content-Type", "application/json"), ("Access-Control-Allow-Origin", "*")],
          "\"User body required.\""⟩, w.table, []⟩ := by
  have hbody : errorResponse ErrUserNotInformed 400 =
      ⟨400, [("Content-Type", "application/json"), ("Access-Control-Allow-Origin", "*")],
        "\"User body required.\""⟩ := by decide
  constructor
  · rw [handler_of_authPasses L w request hauth]
    simp [handlerBody, hparse, hbody]
  · have hauth2 : authPasses w ⟨"", request.Authorizer⟩ = true := hauth
    rw [handler_of_authPasses refLibs w _ hauth2]
    have hd : refLibs.jsonUnmarshal "" = .error "invalid character or unexpected end of JSON input" := by
      decide
    simp [handlerBody, hd, hbody]

theorem handler_unparseable_body_witness :
    handler refLibs sampleWorld ⟨"[1, 2", some sampleAuthorizer⟩ =
        ⟨.returned ⟨400, [("Content-Type", "application/json"), ("Access-Control-Allow-Origin", "*")],
          "\"User body required.\""⟩, sampleWorld.table, []⟩
      ∧ handler refLibs sampleWorld ⟨"", some sampleAuthorizer⟩ =
        ⟨.returned ⟨400, [("Content-Type", "application/json"), ("Access-Control-Allow-Origin", "*")],
          "\"User body required.\""⟩, sampleWorld.table, []⟩ :=
  handler_unparseable_body refLibs sampleWorld ⟨"[1, 2", some sampleAuthorizer⟩
    "invalid character or unexpected end of JSON input" (by decide) (by decide)

/-- C6: the handler returns the response of `ErrAuthorizerNotConfigured`
(status 500, body the JSON string "Authorization not configured") exactly when
the system is not in local-development mode and the authorizer of the request
is nil; it does so whatever the body is, without any request to the store; in
local-development mode the run does not depend on the authorizer at all. -/
theorem handler_authorizer_not_configured (L : Libs) (w : World)
    (request : APIGatewayProxyRequest) :
    ((handler L w request).outcome = .returned (errorResponse ErrAuthorizerNotConfigured 500)
        ↔ (devEnv w = false ∧ request.Authorizer = none))
      ∧ errorResponse ErrAuthorizerNotConfigured 500 =
          ⟨500, [("Content-Type", "application/json"), ("Access-Control-Allow-Origin", "*")],
            "\"Authorization not configured\""⟩
      ∧ (devEnv w = false → request.Authorizer = none →
          handler L w request =
            ⟨.returned (errorResponse ErrAuthorizerNotConfigured 500), w.table, []⟩)
      ∧ (devEnv w = true → ∀ a, handler L w ⟨request.Body, none⟩ = handler L w ⟨request.Body, a⟩) := by
  have hrun : devEnv w = false → request.Authorizer = none →
      handler L w request =
        ⟨.returned (errorResponse ErrAuthorizerNotConfigured 500), w.table, []⟩ := by
    intro hd ha
    simp [handler, hd, ha]
  have hbody : ∀ r : APIGatewayProxyRequest, (handlerBody L w r).outcome ≠
      .returned (errorResponse ErrAuthorizerNotConfigured 500) := by
    intro r h
    rcases handlerBody_outcome L w r with ho | ⟨err, ho⟩ | ⟨err, herr, ho⟩ | ⟨u, ho⟩
    · rw [ho] at h; simp at h
    · rw [ho] at h; simp [errorResponse] at h
    · rw [ho] at h
      rcases herr with rfl | rfl | rfl <;> revert h <;> decide
    · rw [ho] at h; simp [errorResponse] at h
  refine ⟨⟨?_, fun ⟨hd, ha⟩ => by rw [hrun hd ha]⟩, by decide, hrun, ?_⟩
  · intro h
    cases hd : devEnv w with
    | true =>
      rw [handler_dev L w request hd] at h
      exact absurd h (hbody request)
    | false =>
      refine ⟨rfl, ?_⟩
      cases ha : request.Authorizer with
      | none => rfl
      | some a =>
        exfalso
        unfold handler at h
        simp only [hd, ha, if_true] at h
        cases hx : assertMap (a.lookup "claims") with
        | none => simp [hx] at h
        | some m => rw [hx] at h; exact hbody request h
  · intro hd a
    rw [handler_dev L w _ hd, handler_dev L w _ hd]
    rfl

theorem handler_authorizer_not_configured_witness :
    handler refLibs sampleWorld ⟨annBody, none⟩ =
      ⟨.returned (errorResponse ErrAuthorizerNotConfigured 500), sampleWorld.table, []⟩ :=
  (handler_authorizer_not_configured refLibs sampleWorld ⟨annBody, none⟩).2.2.1 rfl rfl

theorem length_pos_of_ne_empty (s : String) (h : s ≠ "") : 0 < s.length := by
  rcases s with ⟨l⟩
  cases l with
  | nil => exact absurd rfl h
  | cons c cs => simp [String.length]

theorem validateEmail_eq_none (L : Libs) (u : User) :
    validateEmail L u = none ↔ (u.Email ≠ "" ∧ L.emailRegex u.Email = true) := by
  unfold validateEmail
  by_cases h1 : u.Email = ""
  · simp [h1]
  · cases h2 : L.emailRegex u.Email <;> simp [h1]

theorem validateName_eq_none (u : User) :
    validateName u = none ↔ (2 ≤ u.Name.length ∧ u.Name.length ≤ 200) := by
  unfold validateName
  by_cases h1 : u.Name = ""
  · simp [h1]
  · by_cases h2 : u.Name.length < 2
    · simp [h1, h2]
    · by_cases h3 : 200 < u.Name.length
      · simp [h1, h2, h3]
      · simp [h1, h2, h3]
        omega

theorem validateStruct_eq_none (L : Libs) (u : User) :
    validateStruct L u = none ↔
      ((u.Email ≠ "" ∧ L.emailRegex u.Email = true) ∧ (2 ≤ u.Name.length ∧ u.Name.length ≤ 200)) := by
  rw [← validateEmail_eq_none, ← validateName_eq_none]
  unfold validateStruct
  cases validateEmail L u <;> cases validateName u <;> simp

theorem validateEmail_field (L : Libs) (u : User) (fe : FieldError)
    (h : validateEmail L u = some fe) : fe.Field = "Email" := by
  unfold validateEmail at h
  split_ifs at h <;> simp at h <;> rw [← h]

theorem validateName_field (u : User) (fe : FieldError)
    (h : validateName u = some fe) : fe.Field = "Name" := by
  unfold validateName at h
  split_ifs at h <;> simp at h <;> rw [← h]

/-- C4: a request that passes the authorization step and whose body parses to
a user with a missing or malformed e-mail, or a name that is missing, shorter
than 2 or longer than 200 characters, gets status 400 with the JSON string of
the validator error; the error has an entry for field `Email` exactly when the
e-mail fails and one for field `Name` exactly when the name fails (for the user
of body `{"name":"A"}` the body lists the `required` failure of `Email` and the
`min` failure of `Name`); no request is sent to the store, whatever the table
holds. -/
theorem handler_validation_failure (L : Libs) (w : World) (request : APIGatewayProxyRequest)
    (u : User) (hauth : authPasses w request = true)
    (hparse : L.jsonUnmarshal request.Body = .ok u)
    (hbad : (u.Email = "" ∨ L.emailRegex u.Email = false)
      ∨ (u.Name = "" ∨ u.Name.length < 2 ∨ 200 < u.Name.length)) :
    ∃ errs : List FieldError,
      handler L w request =
        ⟨.returned ⟨400, [("Content-Type", "application/json"), ("Access-Control-Allow-Origin", "*")],
          jsonMarshalString ("\n".intercalate (errs.map FieldError.Error))⟩, w.table, []⟩
      ∧ errs ≠ []
      ∧ ((u.Email = "" ∨ L.emailRegex u.Email = false) ↔ ∃ fe ∈ errs, fe.Field = "Email")
      ∧ ((u.Name = "" ∨ u.Name.length < 2 ∨ 200 < u.Name.length) ↔ ∃ fe ∈ errs, fe.Field = "Name")
      ∧ (u = ⟨"", "", "A", 0⟩ →
          jsonMarshalString ("\n".intercalate (errs.map FieldError.Error)) =
            "\"Key: 'User.Email' Error:Field validation for 'Email' failed on the 'required' tag\\nKey: 'User.Name' Error:Field validation for 'Name' failed on the 'min' tag\"") := by
  refine ⟨(validateEmail L u).toList ++ (validateName u).toList, ?_, ?_, ?_, ?_, ?_⟩
  · have hne : validateStruct L u ≠ none := by
      rw [Ne, validateStruct_eq_none]
      rintro ⟨⟨h1, h2⟩, h3, h4⟩
      rcases hbad with (h | h) | (h | h | h)
      · exact h1 h
      · rw [h2] at h; cases h
      · rw [h] at h3; simp at h3
      · omega
      · omega
    have hv : validateStruct L u =
        some (.validation ((validateEmail L u).toList ++ (validateName u).toList)) := by
      unfold validateStruct at hne ⊢
      revert hne
      cases validateEmail L u <;> cases validateName u <;> simp [Option.toList]
    rw [handler_of_authPasses L w request hauth, handlerBody_invalid L w request u _ hparse hv]
    rfl
  · intro h
    have he : validateEmail L u = none := by
      cases hx : validateEmail L u with
      | none => rfl
      | some fe => rw [hx] at h; simp at h
    have hn : validateName u = none := by
      cases hx : validateName u with
      | none => rfl
      | some fe => rw [hx] at h; simp at h
    obtain ⟨h1, h2⟩ := (validateEmail_eq_none L u).mp he
    obtain ⟨h3, h4⟩ := (validateName_eq_none u).mp hn
    rcases hbad with (h | h) | (h | h | h)
    · exact h1 h
    · rw [h2] at h; cases h
    · rw [h] at h3; simp at h3
    · omega
    · omega
  · constructor
    · intro hb
      cases hx : validateEmail L u with
      | none =>
        obtain ⟨h1, h2⟩ := (validateEmail_eq_none L u).mp hx
        rcases hb with h | h
        · exact absurd h h1
        · rw [h2] at h; cases h
      | some fe => exact ⟨fe, by simp, validateEmail_field L u fe hx⟩
    · rintro ⟨fe, hmem, hf⟩
      rcases List.mem_append.mp hmem with hm | hm
      · by_contra hcon
        have : validateEmail L u = none := by
          rw [validateEmail_eq_none]
          constructor
          · intro h; exact hcon (Or.inl h)
          · cases hr : L.emailRegex u.Email with
            | true => rfl
            | false => exact absurd (Or.inr hr) hcon
        rw [this] at hm; simp at hm
      · have hm2 : validateName u = some fe := by simpa using hm
        have := validateName_field u fe hm2
        rw [hf] at this; exact absurd this (by decide)
  · constructor
    · intro hb
      cases hx : validateName u with
      | none =>
        obtain ⟨h3, h4⟩ := (validateName_eq_none u).mp hx
        rcases hb with h | h | h
        · rw [h] at h3; simp at h3
        · omega
        · omega
      | some fe => exact ⟨fe, by simp, validateName_field u fe hx⟩
    · rintro ⟨fe, hmem, hf⟩
      rcases List.mem_append.mp hmem with hm | hm
      · have hm2 : validateEmail L u = some fe := by simpa using hm
        have := validateEmail_field L u fe hm2
        rw [hf] at this; exact absurd this (by decide)
      · by_contra hcon
        have : validateName u = none := by
          rw [validateName_eq_none]
          constructor <;> by_contra hh <;> apply hcon
          · exact Or.inr (Or.inl (by omega))
          · exact Or.inr (Or.inr (by omega))
        rw [this] at hm; simp at hm
  · rintro rfl
    have h1 : validateEmail L ⟨"", "", "A", 0⟩ = some ⟨"User.Email", "Email", "required"⟩ := by
      simp [validateEmail]
    have h2 : validateName ⟨"", "", "A", 0⟩ = some ⟨"User.Name", "Name", "min"⟩ := by decide
    rw [h1, h2]
    decide

theorem handler_validation_failure_witness :
    ∃ errs : List FieldError,
      handler refLibs sampleWorld ⟨"\x7b\"name\":\"A\"\x7d", some sampleAuthorizer⟩ =
        ⟨.returned ⟨400, [("Content-Type", "application/json"), ("Access-Control-Allow-Origin", "*")],
          jsonMarshalString ("\n".intercalate (errs.map FieldError.Error))⟩, sampleWorld.table, []⟩
      ∧ errs ≠ []
      ∧ (("" = "" ∨ refLibs.emailRegex "" = false) ↔ ∃ fe ∈ errs, fe.Field = "Email")
      ∧ (("A" = "" ∨ "A".length < 2 ∨ 200 < "A".length) ↔ ∃ fe ∈ errs, fe.Field = "Name")
      ∧ ((⟨"", "", "A", 0⟩ : User) = ⟨"", "", "A", 0⟩ →
          jsonMarshalString ("\n".intercalate (errs.map FieldError.Error)) =
            "\"Key: 'User.Email' Error:Field validation for 'Email' failed on the 'required' tag\\nKey: 'User.Name' Error:Field validation for 'Name' failed on the 'min' tag\"") :=
  handler_validation_failure refLibs sampleWorld ⟨"\x7b\"name\":\"A\"\x7d", some sampleAuthorizer⟩
    ⟨"", "", "A", 0⟩ (by decide) (by decide) (Or.inl (Or.inl rfl))

theorem handler_cases (L : Libs) (w : World) (request : APIGatewayProxyRequest) :
    handler L w request = ⟨.returned (errorResponse ErrAuthorizerNotConfigured 500), w.table, []⟩
      ∨ handler L w request = ⟨.panicked, w.table, []⟩
      ∨ handler L w request = handlerBody L w request := by
  cases hd : devEnv w with
  | true => exact Or.inr (Or.inr (handler_dev L w request hd))
  | false =>
    cases ha : request.Authorizer with
    | none => left; simp [handler, hd, ha]
    | some a =>
      cases hx : assertMap (a.lookup "claims") with
      | none => right; left; simp [handler, hd, ha, hx]
      | some m => right; right; simp [handler, hd, ha, hx]

theorem emailAlreadyExists_eq_some (w : World) (email : String)
    (r : (Bool × Option GoError) × List StoreCall) (h : emailAlreadyExists w email = some r) :
    w.configLoads = true ∧ forHasMorePages (NewScanPaginator w email) = r := by
  unfold emailAlreadyExists dynamoDbConnection at h
  cases hc : w.configLoads with
  | false => simp [hc] at h
  | true => simpa [hc] using h

theorem save_result_none (w : World) (u : User) (h : (save w u).result = none) :
    w.configLoads = false := by
  cases hc : w.configLoads with
  | false => rfl
  | true =>
    exfalso
    rcases forHasMorePages_shape (NewScanPaginator w u.Email) with hr | hr | hr
    · rw [save_put w u hc hr] at h
      cases hp : PutItem w (MarshalMap u).1 <;> rw [hp] at h <;> simp at h
    · rw [save_exists w u hc hr] at h; simp at h
    · rw [save_scan_error w u false _ hc hr] at h; simp at h

/-- The table after `save`: unchanged, or the put of the item of the user
after a scan that found no item with the e-mail. -/
theorem save_table (w : World) (u : User) :
    (save w u).table = w.table
      ∨ ((save w u).result = some none
          ∧ (save w u).table =
              w.table.filter (fun it => decide (it.lookup hashKey ≠ some (AttributeValue.S u.Id)))
                ++ [userItem u]
          ∧ ∀ it ∈ w.table, matchesEmail u.Email it = false) := by
  cases hc : w.configLoads with
  | false => rw [save_noconfig w u hc]; exact Or.inl rfl
  | true =>
    rcases forHasMorePages_shape (NewScanPaginator w u.Email) with hr | hr | hr
    · rw [save_put w u hc hr]
      cases hp : PutItem w (MarshalMap u).1 with
      | none => exact Or.inl rfl
      | some t =>
        right
        obtain ⟨_, k, hk, ht⟩ := PutItem_eq_some w _ t hp
        obtain ⟨hav, hkid⟩ := MarshalMap_keyed u k hk
        refine ⟨rfl, ?_, ?_⟩
        · show t = _
          rw [ht, hav, hkid]
        · intro it hit
          obtain ⟨p, hp1, hp2⟩ := (mem_paginate w.pageLimit w.table.length w.table it).mpr hit
          exact scan_false_no_match w.failingScans u.Email _ 0 hr p hp1 it hp2
    · rw [save_exists w u hc hr]; exact Or.inl rfl
    · rw [save_scan_error w u false _ hc hr]; exact Or.inl rfl

theorem handlerBody_table (L : Libs) (w : World) (request : APIGatewayProxyRequest) :
    (handlerBody L w request).table = w.table
      ∨ ∃ u : User, (∃ r, (handlerBody L w request).outcome = .returned r ∧ r.StatusCode = 200)
          ∧ L.jsonUnmarshal request.Body = .ok u
          ∧ (handlerBody L w request).table =
              w.table.filter (fun it => decide (it.lookup hashKey ≠ some (AttributeValue.S (xidString w.uuid))))
                ++ [userItem ⟨xidString w.uuid, u.Email, u.Name, u.Age⟩]
          ∧ ∀ it ∈ w.table, matchesEmail u.Email it = false := by
  cases hp : L.jsonUnmarshal request.Body with
  | error e => rw [handlerBody_error L w request e hp]; exact Or.inl rfl
  | ok u =>
    cases hv : validateStruct L u with
    | some err => rw [handlerBody_invalid L w request u err hp hv]; exact Or.inl rfl
    | none =>
      rw [handlerBody_valid L w request u hp hv]
      rcases save_table w ⟨xidString w.uuid, u.Email, u.Name, u.Age⟩ with h | ⟨hr, ht, hno⟩
      · left
        cases hs : (save w ⟨xidString w.uuid, u.Email, u.Name, u.Age⟩).result with
        | none => exact h
        | some r => cases r <;> exact h
      · right
        refine ⟨u, ?_, rfl, ?_, hno⟩
        · rw [hr]; exact ⟨_, rfl, rfl⟩
        · rw [hr]; exact ht

theorem emailOf_eq_some (it : Item) (e : String) :
    emailOf it = some e ↔ it.lookup "email" = some (AttributeValue.S e) := by
  unfold emailOf
  cases h : it.lookup "email" with
  | none => simp
  | some v => cases v <;> simp

theorem emailUnique_put (t : List Item) (u : User) (p : Item → Bool)
    (hu : EmailUnique t) (hno : ∀ it ∈ t, matchesEmail u.Email it = false) :
    EmailUnique (t.filter p ++ [userItem u]) := by
  unfold EmailUnique at hu ⊢
  rw [List.filterMap_append]
  have hlast : List.filterMap emailOf [userItem u] = [u.Email] := by
    simp [List.filterMap, emailOf, userItem, List.lookup]
  rw [hlast]
  have hsub : (List.filterMap emailOf (t.filter p)).Sublist (List.filterMap emailOf t) :=
    List.Sublist.filterMap _ (List.filter_sublist t)
  refine List.Nodup.append (hu.sublist hsub) (List.nodup_singleton _) ?_
  intro e he1 he2
  rw [List.mem_singleton] at he2
  subst he2
  obtain ⟨it, hit, hem⟩ := List.mem_filterMap.mp he1
  have hit' : it ∈ t := (List.mem_filter.mp hit).1
  have := hno it hit'
  rw [emailOf_eq_some] at hem
  rw [← matchesEmail_iff] at hem
  rw [hem] at this
  cases this

theorem xidString_length (raw : Nat) : (xidString raw).length = 20 := by
  simp [xidString, String.length]

theorem escapeRune_plain (c : Char) (h : plainRune c = true) : escapeRune c = [c] := by
  unfold plainRune at h
  simp only [Bool.and_eq_true, decide_eq_true_eq] at h
  obtain ⟨⟨⟨⟨⟨⟨⟨h1, h2⟩, h3⟩, h4⟩, h5⟩, h6⟩, h7⟩, h8⟩ := h
  have e10 : c ≠ Char.ofNat 10 := by rintro rfl; revert h1; decide
  have e13 : c ≠ Char.ofNat 13 := by rintro rfl; revert h1; decide
  have e9 : c ≠ Char.ofNat 9 := by rintro rfl; revert h1; decide
  have e8 : c ≠ Char.ofNat 8 := by rintro rfl; revert h1; decide
  have e12 : c ≠ Char.ofNat 12 := by rintro rfl; revert h1; decide
  have hlt : ¬ c.toNat < 32 := by omega
  unfold escapeRune
  simp [h2, h3, h4, h5, h6, h7, h8, e10, e13, e9, e8, e12, hlt]

theorem flatMap_escapeRune_plain (s : String) (h : plainText s = true) :
    String.mk (s.toList.flatMap escapeRune) = s := by
  unfold plainText at h
  have key : ∀ l : List Char, l.all plainRune = true → l.flatMap escapeRune = l := by
    intro l
    induction l with
    | nil => intro _; rfl
    | cons c cs ih =>
      intro hl
      simp only [List.all_cons, Bool.and_eq_true] at hl
      simp [List.flatMap_cons, escapeRune_plain c hl.1, ih hl.2]
  rw [key _ h]
  rfl

theorem xidString_plain (raw : Nat) : plainText (xidString raw) = true := by
  have hall : ∀ k, k < 32 → plainRune (xidEncoding.getD k '0') = true := by decide
  unfold plainText xidString
  simp only [String.toList, List.all_eq_true, List.mem_map, List.mem_range]
  rintro c ⟨i, _, rfl⟩
  exact hall _ (Nat.mod_lt _ (by decide))

/-- The JSON object `json.Marshal` writes for a user whose id is the text of an `xid`. -/
theorem jsonMarshalUser_eq (raw : Nat) (email name : String) (age : Int) :
    jsonMarshalUser ⟨xidString raw, email, name, age⟩ =
      "\x7b\"id\":\"" ++ xidString raw
        ++ "\",\"e-mail\":\"" ++ String.mk (email.toList.flatMap escapeRune)
        ++ "\",\"name\":\"" ++ String.mk (name.toList.flatMap escapeRune)
        ++ "\",\"age\":" ++ toString age ++ "\x7d" := by
  have h1 : "\x7b\"id\":\"" = "\x7b\"id\":" ++ "\"" := by decide
  have h2 : "\",\"e-mail\":\"" = "\"" ++ (",\"e-mail\":" ++ "\"") := by decide
  have h3 : "\",\"name\":\"" = "\"" ++ (",\"name\":" ++ "\"") := by decide
  have h4 : "\",\"age\":" = "\"" ++ ",\"age\":" := by decide
  unfold jsonMarshalUser jsonMarshalString
  rw [flatMap_escapeRune_plain _ (xidString_plain raw), h1, h2, h3, h4]
  simp only [String.append_assoc]

/-- C1: for a request that passes the authorization step, whose body parses to
a user with a well-formed e-mail and a name of 2 to 200 characters, for which
the uniqueness scan returns "not found" and the put succeeds, the handler
returns status 200 with the JSON object of the stored record as body: its id
is the text of the generated identifier (twenty characters, whatever id the
body carried), its e-mail, name and age are those of the request, written
unchanged when they hold no character that JSON escapes; the item put, and
added to the table, holds the same four values. -/
theorem handler_success (L : Libs) (w : World) (request : APIGatewayProxyRequest) (u : User)
    (scans : List StoreCall) (t : List Item)
    (hauth : authPasses w request = true)
    (hparse : L.jsonUnmarshal request.Body = .ok u)
    (hemail : u.Email ≠ "" ∧ L.emailRegex u.Email = true)
    (hname : 2 ≤ u.Name.length ∧ u.Name.length ≤ 200)
    (hscan : emailAlreadyExists w u.Email = some ((false, none), scans))
    (hput : PutItem w
      [("id", AttributeValue.S (xidString w.uuid)), ("email", AttributeValue.S u.Email),
       ("name", AttributeValue.S u.Name), ("age", AttributeValue.N (toString u.Age))] = some t) :
    handler L w request =
        ⟨.returned ⟨200, [],
          "\x7b\"id\":\"" ++ xidString w.uuid
            ++ "\",\"e-mail\":\"" ++ String.mk (u.Email.toList.flatMap escapeRune)
            ++ "\",\"name\":\"" ++ String.mk (u.Name.toList.flatMap escapeRune)
            ++ "\",\"age\":" ++ toString u.Age ++ "\x7d"⟩,
          t,
          scans ++ [StoreCall.PutItem
            [("id", AttributeValue.S (xidString w.uuid)), ("email", AttributeValue.S u.Email),
             ("name", AttributeValue.S u.Name), ("age", AttributeValue.N (toString u.Age))]]⟩
      ∧ t = w.table.filter
              (fun it => decide (it.lookup "id" ≠ some (AttributeValue.S (xidString w.uuid))))
            ++ [[("id", AttributeValue.S (xidString w.uuid)), ("email", AttributeValue.S u.Email),
                 ("name", AttributeValue.S u.Name), ("age", AttributeValue.N (toString u.Age))]]
      ∧ (∀ c ∈ scans, c = StoreCall.Scan)
      ∧ ((xidString w.uuid).length = 20 ∧ xidString w.uuid ≠ ""
          ∧ xidString 0x4d88e15b60f486e428412dc9 = "9m4e2mr0ui3e8a215n4g")
      ∧ (plainText u.Email = true → plainText u.Name = true →
          "\x7b\"id\":\"" ++ xidString w.uuid
            ++ "\",\"e-mail\":\"" ++ String.mk (u.Email.toList.flatMap escapeRune)
            ++ "\",\"name\":\"" ++ String.mk (u.Name.toList.flatMap escapeRune)
            ++ "\",\"age\":" ++ toString u.Age ++ "\x7d"
          = "\x7b\"id\":\"" ++ xidString w.uuid ++ "\",\"e-mail\":\"" ++ u.Email
            ++ "\",\"name\":\"" ++ u.Name ++ "\",\"age\":" ++ toString u.Age ++ "\x7d")
      ∧ String.mk ("a\"b\\c<d>&\n\r\t\x08\x0c\x01é".toList.flatMap escapeRune)
          = "a\\\"b\\\\c\\u003cd\\u003e\\u0026\\n\\r\\t\\b\\f\\u0001é" := by
  obtain ⟨hc, hr⟩ := emailAlreadyExists_eq_some w u.Email _ hscan
  have hput' : PutItem w (MarshalMap ⟨xidString w.uuid, u.Email, u.Name, u.Age⟩).1 = some t := hput
  obtain ⟨_, k, hk, ht⟩ := PutItem_eq_some w _ t hput'
  obtain ⟨hav, hkid⟩ := MarshalMap_keyed _ k hk
  have hv : validateStruct L u = none := (validateStruct_eq_none L u).mpr ⟨hemail, hname⟩
  have hr1 : (forHasMorePages
      (NewScanPaginator w (⟨xidString w.uuid, u.Email, u.Name, u.Age⟩ : User).Email)).1
      = (false, none) := by
    show (forHasMorePages (NewScanPaginator w u.Email)).1 = (false, none)
    rw [hr]
  have hsave := save_put w ⟨xidString w.uuid, u.Email, u.Name, u.Age⟩ hc hr1
  rw [hput'] at hsave
  have hne : xidString w.uuid ≠ "" := by
    intro h
    have hl := xidString_length w.uuid
    rw [h] at hl
    exact absurd hl (by decide)
  refine ⟨?_, ?_, ?_, ⟨xidString_length _, hne, by decide⟩, ?_, by decide⟩
  · rw [handler_of_authPasses L w request hauth, handlerBody_valid L w request u hparse hv, hsave]
    simp only
    rw [jsonMarshalUser_eq]
    have : (forHasMorePages (NewScanPaginator w u.Email)).2 = scans := by rw [hr]
    rw [← this]
    rfl
  · rw [ht, hkid]
    rfl
  · intro c hcm
    have := forHasMorePages_calls (NewScanPaginator w u.Email) c
    rw [hr] at this
    exact this hcm
  · intro h1 h2
    rw [flatMap_escapeRune_plain u.Email h1, flatMap_escapeRune_plain u.Name h2]

theorem handler_success_witness :
    handler refLibs sampleWorld ⟨annBodyWithId, some sampleAuthorizer⟩ =
      ⟨.returned ⟨200, [],
        "\x7b\"id\":\"9m4e2mr0ui3e8a215n4g\",\"e-mail\":\"a@b.com\",\"name\":\"Ann\",\"age\":30\x7d"⟩,
        [[("id", AttributeValue.S "9m4e2mr0ui3e8a215n4g"), ("email", AttributeValue.S "a@b.com"),
          ("name", AttributeValue.S "Ann"), ("age", AttributeValue.N "30")]],
        [StoreCall.Scan, StoreCall.PutItem
          [("id", AttributeValue.S "9m4e2mr0ui3e8a215n4g"), ("email", AttributeValue.S "a@b.com"),
           ("name", AttributeValue.S "Ann"), ("age", AttributeValue.N "30")]]⟩ :=
  (handler_success refLibs sampleWorld ⟨annBodyWithId, some sampleAuthorizer⟩
      ⟨"chosen-by-caller", "a@b.com", "Ann", 30⟩ [StoreCall.Scan]
      [[("id", AttributeValue.S "9m4e2mr0ui3e8a215n4g"), ("email", AttributeValue.S "a@b.com"),
        ("name", AttributeValue.S "Ann"), ("age", AttributeValue.N "30")]]
      (by decide) (by decide) (by decide) (by decide) (by decide) (by decide)).1

/-- C8: over any sequence of scan pages none of which fails,
`emailAlreadyExists` returns `(true, nil)` exactly when some item on some page
has an `email` attribute equal to the given string, and `(false, nil)` exactly
when none has; equality is that of strings, so letter case counts, and a match
on a later page behind pages without a match is found. The same holds for the
pages of a table when the configuration loads and no page request fails. -/
theorem emailAlreadyExists_iff (email : String) (pages : List (List Item)) :
    ((forHasMorePages (pages.map (fun p => some (Scan email p)))).1 = (true, none)
        ↔ ∃ p ∈ pages, ∃ it ∈ p, it.lookup "email" = some (AttributeValue.S email))
      ∧ ((forHasMorePages (pages.map (fun p => some (Scan email p)))).1 = (false, none)
        ↔ ¬ ∃ p ∈ pages, ∃ it ∈ p, it.lookup "email" = some (AttributeValue.S email))
      ∧ (∀ w : World, w.configLoads = true → w.failingScans = [] →
          ∃ b calls, emailAlreadyExists w email = some ((b, none), calls)
            ∧ (b = true ↔ ∃ it ∈ w.table, it.lookup "email" = some (AttributeValue.S email)))
      ∧ (forHasMorePages ([[], [userItem ⟨"1", "x@y.z", "Xy", 1⟩], [userItem ⟨"2", "a@b.com", "Ann", 30⟩]].map
            (fun p => some (Scan "a@b.com" p)))).1 = (true, none)
      ∧ (forHasMorePages ([[userItem ⟨"2", "A@b.com", "Ann", 30⟩]].map
            (fun p => some (Scan "a@b.com" p)))).1 = (false, none) := by
  have key : ∀ (ps : List (List Item)),
      (∃ p ∈ ps, ∃ it ∈ p, matchesEmail email it = true) ↔
        ∃ p ∈ ps, ∃ it ∈ p, it.lookup "email" = some (AttributeValue.S email) := by
    intro ps
    simp only [matchesEmail_iff]
  have hT : ∀ ps : List (List Item),
      ((forHasMorePages (ps.map (fun p => some (Scan email p)))).1 = (true, none)
        ↔ ∃ p ∈ ps, ∃ it ∈ p, it.lookup "email" = some (AttributeValue.S email)) := by
    intro ps
    constructor
    · intro h
      by_contra hn
      rw [← key] at hn
      rw [forHasMorePages_absent email ps hn] at h
      simp at h
    · intro h
      exact forHasMorePages_found email ps ((key ps).mpr h)
  have hF : ∀ ps : List (List Item),
      ((forHasMorePages (ps.map (fun p => some (Scan email p)))).1 = (false, none)
        ↔ ¬ ∃ p ∈ ps, ∃ it ∈ p, it.lookup "email" = some (AttributeValue.S email)) := by
    intro ps
    constructor
    · intro h hn
      rw [(hT ps).mpr hn] at h
      simp at h
    · intro h
      rw [← key] at h
      exact forHasMorePages_absent email ps h
  refine ⟨hT pages, hF pages, ?_, by decide, by decide⟩
  intro w hc hf
  have hpag : NewScanPaginator w email =
      (paginate w.pageLimit w.table.length w.table).map (fun p => some (Scan email p)) := by
    unfold NewScanPaginator
    rw [hf, scanResponses_nil_failing]
  have hex : emailAlreadyExists w email = some (forHasMorePages (NewScanPaginator w email)) := by
    simp [emailAlreadyExists, dynamoDbConnection, hc]
  have hmem : (∃ p ∈ paginate w.pageLimit w.table.length w.table, ∃ it ∈ p,
      it.lookup "email" = some (AttributeValue.S email)) ↔
      ∃ it ∈ w.table, it.lookup "email" = some (AttributeValue.S email) := by
    constructor
    · rintro ⟨p, hp, it, hit, h⟩
      exact ⟨it, (mem_paginate _ _ _ it).mp ⟨p, hp, hit⟩, h⟩
    · rintro ⟨it, hit, h⟩
      obtain ⟨p, hp, hip⟩ := (mem_paginate w.pageLimit w.table.length w.table it).mpr hit
      exact ⟨p, hp, it, hip, h⟩
  by_cases hx : ∃ it ∈ w.table, it.lookup "email" = some (AttributeValue.S email)
  · refine ⟨true, (forHasMorePages (NewScanPaginator w email)).2, ?_, by simpa using hx⟩
    rw [hex]
    have := (hT _).mpr (hmem.mpr hx)
    rw [← hpag] at this
    rw [← this]
  · refine ⟨false, (forHasMorePages (NewScanPaginator w email)).2, ?_, by simpa using hx⟩
    rw [hex]
    have := (hF _).mpr (fun h => hx (hmem.mp h))
    rw [← hpag] at this
    rw [← this]

theorem emailAlreadyExists_iff_witness :
    ∃ b calls, emailAlreadyExists { sampleWorld with table := [userItem annStored] } "a@b.com"
        = some ((b, none), calls)
      ∧ (b = true ↔ ∃ it ∈ ({ sampleWorld with table := [userItem annStored] } : World).table,
          it.lookup "email" = some (AttributeValue.S "a@b.com")) :=
  (emailAlreadyExists_iff "a@b.com" [[userItem annStored]]).2.2.1
    { sampleWorld with table := [userItem annStored] } rfl rfl

theorem noFaults_iff (w : World) :
    noFaults w = true ↔
      (w.configLoads = true ∧ w.failingScans = [] ∧ w.putFails = false) := by
  unfold noFaults
  cases w.configLoads <;> cases w.putFails <;> cases w.failingScans <;> simp

/-- A nil error of `save` means that the item of the user was put after a scan
that found no item with the e-mail. -/
theorem save_ok (w : World) (u : User) (h : (save w u).result = some none) :
    (save w u).table =
        w.table.filter (fun it => decide (it.lookup hashKey ≠ some (AttributeValue.S u.Id)))
          ++ [userItem u]
      ∧ ∀ it ∈ w.table, matchesEmail u.Email it = false := by
  cases hc : w.configLoads with
  | false => rw [save_noconfig w u hc] at h; simp at h
  | true =>
    rcases forHasMorePages_shape (NewScanPaginator w u.Email) with hr | hr | hr
    · have hsp := save_put w u hc hr
      cases hp : PutItem w (MarshalMap u).1 with
      | none => rw [hp] at hsp; rw [hsp] at h; simp at h
      | some t =>
        rw [hp] at hsp
        obtain ⟨_, k, hk, ht⟩ := PutItem_eq_some w _ t hp
        obtain ⟨hav, hkid⟩ := MarshalMap_keyed u k hk
        refine ⟨?_, ?_⟩
        · rw [hsp]
          show t = _
          rw [ht, hav, hkid]
        · intro it hit
          obtain ⟨p, hp1, hp2⟩ := (mem_paginate w.pageLimit w.table.length w.table it).mpr hit
          exact scan_false_no_match w.failingScans u.Email _ 0 hr p hp1 it hp2
    · rw [save_exists w u hc hr] at h; simp at h
    · rw [save_scan_error w u false _ hc hr] at h; simp at h

/-- A response with status 200 comes from a parsed, valid user that `save` accepted. -/
theorem handlerBody_200 (L : Libs) (w : World) (request : APIGatewayProxyRequest)
    (r : APIGatewayProxyResponse) (hret : (handlerBody L w request).outcome = .returned r)
    (h200 : r.StatusCode = 200) :
    ∃ u, L.jsonUnmarshal request.Body = .ok u ∧ validateStruct L u = none
      ∧ (save w ⟨xidString w.uuid, u.Email, u.Name, u.Age⟩).result = some none := by
  cases hp : L.jsonUnmarshal request.Body with
  | error e =>
    rw [handlerBody_error L w request e hp] at hret
    simp only [Outcome.returned.injEq] at hret
    rw [← hret] at h200
    simp [errorResponse] at h200
  | ok u =>
    cases hv : validateStruct L u with
    | some err =>
      rw [handlerBody_invalid L w request u err hp hv] at hret
      simp only [Outcome.returned.injEq] at hret
      rw [← hret] at h200
      simp [errorResponse] at h200
    | none =>
      refine ⟨u, rfl, hv, ?_⟩
      rw [handlerBody_valid L w request u hp hv] at hret
      cases hs : (save w ⟨xidString w.uuid, u.Email, u.Name, u.Age⟩).result with
      | none => rw [hs] at hret; simp at hret
      | some res =>
        cases res with
        | none => rfl
        | some err =>
          rw [hs] at hret
          simp only [Outcome.returned.injEq] at hret
          rw [← hret] at h200
          simp [errorResponse] at h200

/-- C2: with the table as explicit state and no failing store operation, if a
first invocation whose body carries e-mail `e` returns status 200, then a
second invocation on the resulting table, with a request that passes the
authorization step and a valid body carrying the same e-mail, returns status
500 with body the JSON string "User already exists with this e-mail", sends
only scan requests (no put) and leaves the table as it was. -/
theorem second_creation_fails (L : Libs) (w1 w2 : World)
    (request1 request2 : APIGatewayProxyRequest) (u1 u2 : User) (r1 : APIGatewayProxyResponse)
    (hnf1 : noFaults w1 = true) (hnf2 : noFaults w2 = true)
    (hparse1 : L.jsonUnmarshal request1.Body = .ok u1)
    (hret : (handler L w1 request1).outcome = .returned r1) (h200 : r1.StatusCode = 200)
    (hseq : w2.table = (handler L w1 request1).table)
    (hauth2 : authPasses w2 request2 = true)
    (hparse2 : L.jsonUnmarshal request2.Body = .ok u2)
    (hemail2 : u2.Email ≠ "" ∧ L.emailRegex u2.Email = true)
    (hname2 : 2 ≤ u2.Name.length ∧ u2.Name.length ≤ 200)
    (hsame : u2.Email = u1.Email) :
    ∃ scans : List StoreCall,
      handler L w2 request2 =
        ⟨.returned ⟨500, [("Content-Type", "application/json"), ("Access-Control-Allow-Origin", "*")],
          "\"User already exists with this e-mail\""⟩, w2.table, scans⟩
      ∧ (∀ c ∈ scans, c = StoreCall.Scan)
      ∧ (∀ item, StoreCall.PutItem item ∉ scans) := by
  obtain ⟨hc1, _, _⟩ := (noFaults_iff w1).mp hnf1
  obtain ⟨hc2, hf2, _⟩ := (noFaults_iff w2).mp hnf2
  -- the first invocation stored an item with the e-mail
  have hstored : ∃ it ∈ w2.table, it.lookup "email" = some (AttributeValue.S u1.Email) := by
    rcases handler_cases L w1 request1 with h | h | h
    · rw [h] at hret
      simp only [Outcome.returned.injEq] at hret
      rw [← hret] at h200
      simp [errorResponse] at h200
    · rw [h] at hret; simp at hret
    · rw [h] at hret hseq
      obtain ⟨u, hp, _, hs⟩ := handlerBody_200 L w1 request1 r1 hret h200
      have hu : u = u1 := by
        rw [hparse1] at hp
        exact (Except.ok.inj hp).symm
      subst hu
      obtain ⟨ht, _⟩ := save_ok w1 _ hs
      have hv : validateStruct L u = none := by assumption
      have htab : (handlerBody L w1 request1).table =
          (save w1 ⟨xidString w1.uuid, u.Email, u.Name, u.Age⟩).table := by
        rw [handlerBody_valid L w1 request1 u hparse1 hv, hs]
      refine ⟨userItem ⟨xidString w1.uuid, u.Email, u.Name, u.Age⟩, ?_, ?_⟩
      · rw [hseq, htab, ht]; simp
      · simp [userItem, List.lookup]
  -- the scan of the second invocation finds it
  have hv2 : validateStruct L u2 = none := (validateStruct_eq_none L u2).mpr ⟨hemail2, hname2⟩
  have hpag : NewScanPaginator w2 u2.Email =
      (paginate w2.pageLimit w2.table.length w2.table).map (fun p => some (Scan u2.Email p)) := by
    unfold NewScanPaginator
    rw [hf2, scanResponses_nil_failing]
  have hfound : (forHasMorePages (NewScanPaginator w2 u2.Email)).1 = (true, none) := by
    rw [hpag]
    apply forHasMorePages_found
    obtain ⟨it, hit, hl⟩ := hstored
    obtain ⟨p, hp1, hp2⟩ := (mem_paginate w2.pageLimit w2.table.length w2.table it).mpr hit
    exact ⟨p, hp1, it, hp2, by rw [matchesEmail_iff, hsame]; exact hl⟩
  have hsave := save_exists w2 ⟨xidString w2.uuid, u2.Email, u2.Name, u2.Age⟩ hc2 hfound
  have hbody : errorResponse ErrUserAlreadyExists 500 =
      ⟨500, [("Content-Type", "application/json"), ("Access-Control-Allow-Origin", "*")],
        "\"User already exists with this e-mail\""⟩ := by decide
  refine ⟨(forHasMorePages (NewScanPaginator w2 u2.Email)).2, ?_, ?_, ?_⟩
  · rw [handler_of_authPasses L w2 request2 hauth2, handlerBody_valid L w2 request2 u2 hparse2 hv2,
      hsave]
    simp only
    rw [hbody]
  · exact forHasMorePages_calls _
  · intro item hmem
    have := forHasMorePages_calls _ _ hmem
    cases this

theorem second_creation_fails_witness :
    ∃ scans : List StoreCall,
      handler refLibs { sampleWorld with table := [userItem annStored], uuid := 0x4d88e15b60f486e428412dca }
          annRequest =
        ⟨.returned ⟨500, [("Content-Type", "application/json"), ("Access-Control-Allow-Origin", "*")],
          "\"User already exists with this e-mail\""⟩, [userItem annStored], scans⟩
      ∧ (∀ c ∈ scans, c = StoreCall.Scan)
      ∧ (∀ item, StoreCall.PutItem item ∉ scans) :=
  second_creation_fails refLibs sampleWorld
    { sampleWorld with table := [userItem annStored], uuid := 0x4d88e15b60f486e428412dca }
    annRequest annRequest ⟨"", "a@b.com", "Ann", 30⟩ ⟨"", "a@b.com", "Ann", 30⟩
    ⟨200, [], jsonMarshalUser annStored⟩
    (by decide) (by decide) (by decide) (by decide) (by decide) (by decide) (by decide) (by decide)
    (by decide) (by decide) (by decide)

/-- C3: e-mail uniqueness is an invariant of sequential invocations. If no two
items of the table carry the same e-mail, then after one invocation of the
handler without store failures, for any request and in either mode, still no
two items carry the same e-mail; hence every table reachable from the empty
table by such invocations has the property. -/
theorem email_unique_invariant (L : Libs) :
    (∀ (w : World) (request : APIGatewayProxyRequest), EmailUnique w.table → noFaults w = true →
        EmailUnique (handler L w request).table)
      ∧ (∀ t : List Item, Reachable L t → EmailUnique t) := by
  have hstep : ∀ (w : World) (request : APIGatewayProxyRequest), EmailUnique w.table →
      noFaults w = true → EmailUnique (handler L w request).table := by
    intro w request hu _
    rcases handler_cases L w request with h | h | h
    · rw [h]; exact hu
    · rw [h]; exact hu
    · rw [h]
      rcases handlerBody_table L w request with ht | ⟨u, _, _, ht, hno⟩
      · rw [ht]; exact hu
      · rw [ht]
        exact emailUnique_put w.table ⟨xidString w.uuid, u.Email, u.Name, u.Age⟩ _ hu hno
  refine ⟨hstep, ?_⟩
  intro t hr
  induction hr with
  | empty => exact List.nodup_nil
  | step w request _ hnf ih => exact hstep w request ih hnf

theorem email_unique_invariant_witness :
    (handler refLibs
        { sampleWorld with table := [userItem annStored, userItem ⟨"9m4e2mr0ui3e8a215n50", "bob@b.com", "Bob", 41⟩],
                           uuid := 0x4d88e15b60f486e428412dcb } annRequest).table
        = [userItem annStored, userItem ⟨"9m4e2mr0ui3e8a215n50", "bob@b.com", "Bob", 41⟩]
      ∧ EmailUnique (handler refLibs
        { sampleWorld with table := [userItem annStored, userItem ⟨"9m4e2mr0ui3e8a215n50", "bob@b.com", "Bob", 41⟩],
                           uuid := 0x4d88e15b60f486e428412dcb } annRequest).table
      ∧ ¬ EmailUnique ([userItem annStored, userItem ⟨"9m4e2mr0ui3e8a215n50", "bob@b.com", "Bob", 41⟩]
          ++ [userItem ⟨"9m4e2mr0ui3e8a215n5g", "a@b.com", "Ann", 30⟩]) :=
  ⟨by decide,
    (email_unique_invariant refLibs).1
      { sampleWorld with table := [userItem annStored, userItem ⟨"9m4e2mr0ui3e8a215n50", "bob@b.com", "Bob", 41⟩],
                         uuid := 0x4d88e15b60f486e428412dcb } annRequest (by decide) (by decide),
    by decide⟩

/-- The responses of the handler: every response whose status is not 200 is
built by `errorResponse` and carries both headers and a JSON string as body; a
response with status 200 carries no header and the JSON encoding of a user. -/
theorem handler_response_shape (L : Libs) (w : World) (request : APIGatewayProxyRequest)
    (r : APIGatewayProxyResponse) (h : (handler L w request).outcome = .returned r) :
    (r.StatusCode ≠ 200 ∧
        r.Headers = [("Content-Type", "application/json"), ("Access-Control-Allow-Origin", "*")]
        ∧ ∃ msg, r.Body = jsonMarshalString msg)
      ∨ (r.StatusCode = 200 ∧ r.Headers = [] ∧ ∃ u, r.Body = jsonMarshalUser u) := by
  have herr : ∀ (err : GoError) (code : Int), code ≠ 200 →
      (handler L w request).outcome = .returned (errorResponse err code) →
      (r.StatusCode ≠ 200 ∧
        r.Headers = [("Content-Type", "application/json"), ("Access-Control-Allow-Origin", "*")]
        ∧ ∃ msg, r.Body = jsonMarshalString msg) := by
    intro err code hcode ho
    rw [ho] at h
    simp only [Outcome.returned.injEq] at h
    subst h
    exact ⟨hcode, rfl, _, rfl⟩
  rcases handler_cases L w request with hc | hc | hc
  · exact Or.inl (herr _ 500 (by decide) (by rw [hc]))
  · rw [hc] at h; simp at h
  · rcases handlerBody_outcome L w request with ho | ⟨err, ho⟩ | ⟨err, _, ho⟩ | ⟨u, ho⟩
    · rw [hc, ho] at h; simp at h
    · exact Or.inl (herr err 400 (by decide) (by rw [hc, ho]))
    · exact Or.inl (herr err 500 (by decide) (by rw [hc, ho]))
    · rw [hc, ho] at h
      simp only [Outcome.returned.injEq] at h
      subst h
      exact Or.inr ⟨rfl, rfl, u, rfl⟩

/-- C9: on the first scenario of the specification the handler answers with
status 200 and an empty header map: the success response carries neither
`Content-Type` nor `Access-Control-Allow-Origin`, which only `errorResponse`
sets. -/
theorem success_response_has_no_headers :
    (handler refLibs sampleWorld annRequest).outcome =
        .returned ⟨200, [],
          "\x7b\"id\":\"9m4e2mr0ui3e8a215n4g\",\"e-mail\":\"a@b.com\",\"name\":\"Ann\",\"age\":30\x7d"⟩
      ∧ (errorResponse ErrUserNotCreated 500).Headers =
          [("Content-Type", "application/json"), ("Access-Control-Allow-Origin", "*")] := by
  decide

theorem forHasMorePages_failing (pre : List ScanOutput) (post : List (Option ScanOutput))
    (h : ∀ out ∈ pre, out.Count = 0) :
    forHasMorePages (pre.map some ++ none :: post) =
      ((false, some ErrUserNotFound), List.replicate (pre.length + 1) StoreCall.Scan) := by
  induction pre with
  | nil => rfl
  | cons p rest ih =>
    have hp : ¬ p.Count > 0 := by
      have := h p (List.mem_cons_self _ _)
      omega
    have ih' := ih (fun out hout => h out (List.mem_cons_of_mem _ hout))
    show forHasMorePages (some p :: (rest.map some ++ none :: post)) = _
    simp only [forHasMorePages, hp, if_false, ih', List.length_cons]
    rfl

/-- C7: for a validated user every failure on the store side during `save`
ends the invocation with one error. A failing scan page, reached after pages
without a match, gives status 500 with "User not found", and the failed scan is
the last request: no put is sent. A failing put gives status 500 with "User
could not be created", the put being the last request and the table unchanged.
The conversion of the record into an item has no error. In neither case is the
status 200. -/
theorem save_failures_are_returned (L : Libs) (w : World) (request : APIGatewayProxyRequest)
    (u : User) (hauth : authPasses w request = true)
    (hparse : L.jsonUnmarshal request.Body = .ok u)
    (hemail : u.Email ≠ "" ∧ L.emailRegex u.Email = true)
    (hname : 2 ≤ u.Name.length ∧ u.Name.length ≤ 200) :
    (∀ (pre : List ScanOutput) (post : List (Option ScanOutput)),
        w.configLoads = true →
        NewScanPaginator w u.Email = pre.map some ++ none :: post →
        (∀ out ∈ pre, out.Count = 0) →
        handler L w request =
          ⟨.returned ⟨500, [("Content-Type", "application/json"), ("Access-Control-Allow-Origin", "*")],
            "\"User not found\""⟩, w.table, List.replicate (pre.length + 1) StoreCall.Scan⟩)
      ∧ (∀ scans : List StoreCall,
        emailAlreadyExists w u.Email = some ((false, none), scans) →
        PutItem w
          [("id", AttributeValue.S (xidString w.uuid)), ("email", AttributeValue.S u.Email),
           ("name", AttributeValue.S u.Name), ("age", AttributeValue.N (toString u.Age))] = none →
        handler L w request =
          ⟨.returned ⟨500, [("Content-Type", "application/json"), ("Access-Control-Allow-Origin", "*")],
            "\"User could not be created\""⟩, w.table,
            scans ++ [StoreCall.PutItem
              [("id", AttributeValue.S (xidString w.uuid)), ("email", AttributeValue.S u.Email),
               ("name", AttributeValue.S u.Name), ("age", AttributeValue.N (toString u.Age))]]⟩)
      ∧ MarshalMap ⟨xidString w.uuid, u.Email, u.Name, u.Age⟩ =
          ([("id", AttributeValue.S (xidString w.uuid)), ("email", AttributeValue.S u.Email),
            ("name", AttributeValue.S u.Name), ("age", AttributeValue.N (toString u.Age))], none) := by
  have hv : validateStruct L u = none := (validateStruct_eq_none L u).mpr ⟨hemail, hname⟩
  have hnf : errorResponse ErrUserNotFound 500 =
      ⟨500, [("Content-Type", "application/json"), ("Access-Control-Allow-Origin", "*")],
        "\"User not found\""⟩ := by decide
  have hnc : errorResponse ErrUserNotCreated 500 =
      ⟨500, [("Content-Type", "application/json"), ("Access-Control-Allow-Origin", "*")],
        "\"User could not be created\""⟩ := by decide
  refine ⟨?_, ?_, rfl⟩
  · intro pre post hc hpag hzero
    have hloop := forHasMorePages_failing pre post hzero
    rw [← hpag] at hloop
    have hr : (forHasMorePages
        (NewScanPaginator w (⟨xidString w.uuid, u.Email, u.Name, u.Age⟩ : User).Email)).1
        = (false, some ErrUserNotFound) := by
      show (forHasMorePages (NewScanPaginator w u.Email)).1 = _
      rw [hloop]
    have hsave := save_scan_error w ⟨xidString w.uuid, u.Email, u.Name, u.Age⟩ false _ hc hr
    rw [handler_of_authPasses L w request hauth, handlerBody_valid L w request u hparse hv, hsave]
    simp only
    rw [hnf]
    have : (forHasMorePages (NewScanPaginator w u.Email)).2
        = List.replicate (pre.length + 1) StoreCall.Scan := by rw [hloop]
    rw [← this]
  · intro scans hscan hput
    obtain ⟨hc, hr⟩ := emailAlreadyExists_eq_some w u.Email _ hscan
    have hr1 : (forHasMorePages
        (NewScanPaginator w (⟨xidString w.uuid, u.Email, u.Name, u.Age⟩ : User).Email)).1
        = (false, none) := by
      show (forHasMorePages (NewScanPaginator w u.Email)).1 = (false, none)
      rw [hr]
    have hput' : PutItem w (MarshalMap ⟨xidString w.uuid, u.Email, u.Name, u.Age⟩).1 = none := hput
    have hsave := save_put w ⟨xidString w.uuid, u.Email, u.Name, u.Age⟩ hc hr1
    rw [hput'] at hsave
    rw [handler_of_authPasses L w request hauth, handlerBody_valid L w request u hparse hv, hsave]
    simp only
    rw [hnc]
    have : (forHasMorePages (NewScanPaginator w u.Email)).2 = scans := by rw [hr]
    rw [← this]
    rfl

theorem save_failures_are_returned_witness :
    handler refLibs { sampleWorld with table := [userItem ⟨"9m4e2mr0ui3e8a215n50", "bob@b.com", "Bob", 41⟩],
                                       failingScans := [0] } annRequest =
        ⟨.returned ⟨500, [("Content-Type", "application/json"), ("Access-Control-Allow-Origin", "*")],
          "\"User not found\""⟩,
          [userItem ⟨"9m4e2mr0ui3e8a215n50", "bob@b.com", "Bob", 41⟩], [StoreCall.Scan]⟩
      ∧ handler refLibs { sampleWorld with putFails := true } annRequest =
        ⟨.returned ⟨500, [("Content-Type", "application/json"), ("Access-Control-Allow-Origin", "*")],
          "\"User could not be created\""⟩, [],
          [StoreCall.Scan, StoreCall.PutItem
            [("id", AttributeValue.S "9m4e2mr0ui3e8a215n4g"), ("email", AttributeValue.S "a@b.com"),
             ("name", AttributeValue.S "Ann"), ("age", AttributeValue.N "30")]]⟩ :=
  ⟨(save_failures_are_returned refLibs
      { sampleWorld with table := [userItem ⟨"9m4e2mr0ui3e8a215n50", "bob@b.com", "Bob", 41⟩],
                         failingScans := [0] } annRequest
      ⟨"", "a@b.com", "Ann", 30⟩ (by decide) (by decide) (by decide) (by decide)).1
      [] [] (by decide) (by decide) (by simp),
   (save_failures_are_returned refLibs { sampleWorld with putFails := true } annRequest
      ⟨"", "a@b.com", "Ann", 30⟩ (by decide) (by decide) (by decide) (by decide)).2.1
      [StoreCall.Scan] (by decide) (by decide)⟩

/-- C10 fails as stated: two requests with the same body in the same world that
differ only in the contents of their non-nil authorizer maps end differently.
Without a `claims` entry, or with one that is not a map, the type assertion of
line 56 panics; with a `claims` map the user is created. -/
theorem authorizer_without_claims_panics :
    handler refLibs sampleWorld ⟨annBody, some []⟩ = ⟨.panicked, [], []⟩
      ∧ handler refLibs sampleWorld ⟨annBody, some [("claims", Iface.str "none")]⟩
          = ⟨.panicked, [], []⟩
      ∧ (handler refLibs sampleWorld ⟨annBody, some sampleAuthorizer⟩).outcome =
          .returned ⟨200, [], jsonMarshalUser annStored⟩
      ∧ devEnv sampleWorld = false := by
  decide

/-- C10, amended: in production mode, two requests with the same body whose
authorizer maps both hold a map under `claims` yield the same run (response,
table and store requests), whatever the maps contain; the run is that of the
steps after the authorization step, and it does not panic when the store
configuration loads. -/
theorem handler_ignores_claims (L : Libs) (w : World) (body : String)
    (a1 a2 m1 m2 : List (String × Iface)) (hprod : devEnv w = false)
    (h1 : a1.lookup "claims" = some (Iface.map m1))
    (h2 : a2.lookup "claims" = some (Iface.map m2)) :
    handler L w ⟨body, some a1⟩ = handler L w ⟨body, some a2⟩
      ∧ handler L w ⟨body, some a1⟩ = handlerBody L w ⟨body, none⟩
      ∧ (w.configLoads = true → (handler L w ⟨body, some a1⟩).outcome ≠ .panicked) := by
  have e1 : handler L w ⟨body, some a1⟩ = handlerBody L w ⟨body, none⟩ := by
    simp [handler, hprod, h1, assertMap]
    rfl
  have e2 : handler L w ⟨body, some a2⟩ = handlerBody L w ⟨body, none⟩ := by
    simp [handler, hprod, h2, assertMap]
    rfl
  refine ⟨by rw [e1, e2], e1, ?_⟩
  intro hc hpanic
  rw [e1] at hpanic
  cases hp : L.jsonUnmarshal body with
  | error e =>
    rw [handlerBody_error L w ⟨body, none⟩ e hp] at hpanic; simp at hpanic
  | ok u =>
    cases hv : validateStruct L u with
    | some err => rw [handlerBody_invalid L w ⟨body, none⟩ u err hp hv] at hpanic; simp at hpanic
    | none =>
      rw [handlerBody_valid L w ⟨body, none⟩ u hp hv] at hpanic
      cases hs : (save w ⟨xidString w.uuid, u.Email, u.Name, u.Age⟩).result with
      | none =>
        have := save_result_none w _ hs
        rw [hc] at this; cases this
      | some res => cases res <;> rw [hs] at hpanic <;> simp at hpanic

theorem handler_ignores_claims_witness :
    handler refLibs sampleWorld ⟨annBody, some sampleAuthorizer⟩ =
        handler refLibs sampleWorld ⟨annBody, some [("claims", Iface.map [])]⟩
      ∧ handler refLibs sampleWorld ⟨annBody, some sampleAuthorizer⟩ =
          handlerBody refLibs sampleWorld ⟨annBody, none⟩
      ∧ (sampleWorld.configLoads = true →
          (handler refLibs sampleWorld ⟨annBody, some sampleAuthorizer⟩).outcome ≠ .panicked) :=
  handler_ignores_claims refLibs sampleWorld annBody sampleAuthorizer [("claims", Iface.map [])]
    _ [] rfl rfl rfl

end CreateUser
